import Mathlib

/-!
Verification of the semantic-normalization core of the `ritual` binding
generator against its specification.  The first part embeds the data model
and the normalization passes of `src/cpp_data.rs`; the second part embeds
the signal/slot classifier of
`src/qt_generator/qt_generator/src/detect_signals_and_slots.rs`.

Recursive hierarchy walks in the source have no termination guard (the
spec assumes acyclic inheritance), so they are embedded with an explicit
fuel parameter; every structural theorem below holds for all fuel values.
-/

set_option maxRecDepth 4000

namespace Ritual

/-- Indirection of a C++ type reference (value / pointer / reference). -/
inductive CppTypeIndirection where
  | None
  | Ptr
  | Ref
deriving DecidableEq

mutual
/-- A C++ type reference: const qualifier, indirection and base type
(`CppType` in `cpp_type.rs`). -/
inductive CppType where
  | mk (is_const : Bool) (indirection : CppTypeIndirection) (base : CppTypeBase)

/-- The base of a C++ type reference (`CppTypeBase` in `cpp_type.rs`). -/
inductive CppTypeBase where
  | Void
  | BuiltIn (name : String)
  | Class (base : CppTypeClassBase)
  | TemplateParameter (nested_level : Int) (index : Int)

/-- A class base reference: class name plus optional template argument
list (`CppTypeClassBase` in `cpp_type.rs`).  The source stores the
arguments as `Option<Vec<CppType>>`; here the option and the list are
fused into the mutual block (`CppTypeArgs`, `CppTypeList`) so that the
recursive functions on the type tree are structurally recursive; the
conversions below mediate to ordinary options and lists. -/
inductive CppTypeClassBase where
  | mk (name : String) (template_arguments : CppTypeArgs)

/-- `Option<Vec<CppType>>` of a class base, fused into the mutual
block. -/
inductive CppTypeArgs where
  | noArgs
  | args (l : CppTypeList)

/-- `Vec<CppType>`, fused into the mutual block. -/
inductive CppTypeList where
  | nil
  | cons (head : CppType) (tail : CppTypeList)
end

def CppType.is_const : CppType → Bool
  | .mk c _ _ => c

def CppType.indirection : CppType → CppTypeIndirection
  | .mk _ i _ => i

def CppType.base : CppType → CppTypeBase
  | .mk _ _ b => b

def CppTypeClassBase.name : CppTypeClassBase → String
  | .mk n _ => n

def CppTypeClassBase.template_arguments : CppTypeClassBase → CppTypeArgs
  | .mk _ a => a

def CppTypeList.toList : CppTypeList → List CppType
  | .nil => []
  | .cons h t => h :: t.toList

def CppTypeList.ofList : List CppType → CppTypeList
  | [] => .nil
  | h :: t => .cons h (CppTypeList.ofList t)

/-- The fused argument option as an ordinary `Option (List CppType)`. -/
def CppTypeArgs.toOption : CppTypeArgs → Option (List CppType)
  | .noArgs => none
  | .args l => some l.toList

def CppTypeArgs.ofOption : Option (List CppType) → CppTypeArgs
  | none => .noArgs
  | some l => .args (CppTypeList.ofList l)

mutual
/-- Structural equality test on type references (the derived `PartialEq`
of the source). -/
def beqCppType : CppType → CppType → Bool
  | .mk c1 i1 b1 => fun t => match t with
    | .mk c2 i2 b2 => c1 == c2 && i1 == i2 && beqCppTypeBase b1 b2

def beqCppTypeBase : CppTypeBase → CppTypeBase → Bool
  | .Void => fun t => match t with
    | .Void => true
    | _ => false
  | .BuiltIn n1 => fun t => match t with
    | .BuiltIn n2 => n1 == n2
    | _ => false
  | .Class c1 => fun t => match t with
    | .Class c2 => beqCppTypeClassBase c1 c2
    | _ => false
  | .TemplateParameter nl1 i1 => fun t => match t with
    | .TemplateParameter nl2 i2 => nl1 == nl2 && i1 == i2
    | _ => false

def beqCppTypeClassBase : CppTypeClassBase → CppTypeClassBase → Bool
  | .mk n1 a1 => fun t => match t with
    | .mk n2 a2 => n1 == n2 && beqCppTypeArgs a1 a2

def beqCppTypeArgs : CppTypeArgs → CppTypeArgs → Bool
  | .noArgs => fun t => match t with
    | .noArgs => true
    | _ => false
  | .args l1 => fun t => match t with
    | .args l2 => beqCppTypeList l1 l2
    | _ => false

def beqCppTypeList : CppTypeList → CppTypeList → Bool
  | .nil => fun t => match t with
    | .nil => true
    | _ => false
  | .cons t1 ts1 => fun t => match t with
    | .cons t2 ts2 => beqCppType t1 t2 && beqCppTypeList ts1 ts2
    | _ => false
end

instance : BEq CppType := ⟨beqCppType⟩
instance : BEq CppTypeBase := ⟨beqCppTypeBase⟩
instance : BEq CppTypeClassBase := ⟨beqCppTypeClassBase⟩

/-- The `void` type (`CppType::void()`). -/
def CppType.void : CppType := .mk false .None .Void

/-- Kind of a method: constructor, destructor or ordinary method
(`CppMethodKind` in `cpp_method.rs`). -/
inductive CppMethodKind where
  | Constructor
  | Destructor
  | Regular
deriving DecidableEq

def CppMethodKind.is_constructor : CppMethodKind → Bool
  | .Constructor => true
  | _ => false

def CppMethodKind.is_destructor : CppMethodKind → Bool
  | .Destructor => true
  | _ => false

/-- C++ visibility. -/
inductive CppVisibility where
  | Public
  | Protected
  | Private
deriving DecidableEq

/-- Operator tag of an operator-overload method; only assignment and
conversion are inspected by the normalization passes. -/
inductive CppOperator where
  | Assignment
  | Conversion (target : CppType)
  | OtherOp (name : String)

/-- Structural equality test on operator tags. -/
def beqCppOperator : CppOperator → CppOperator → Bool
  | .Assignment, .Assignment => true
  | .Conversion t1, .Conversion t2 => beqCppType t1 t2
  | .OtherOp n1, .OtherOp n2 => n1 == n2
  | _, _ => false

instance : BEq CppOperator := ⟨beqCppOperator⟩

/-- Parser origin of an item (`CppOriginLocation`). -/
structure CppOriginLocation where
  include_file_path : String
  line : Nat
deriving DecidableEq

/-- Class-membership record of a method (`CppMethodClassMembership` in
`cpp_method.rs`; the field list follows the construction site in
`ensure_explicit_destructors`). -/
structure CppMethodClassMembership where
  class_type : CppTypeClassBase
  is_virtual : Bool
  is_pure_virtual : Bool
  is_const : Bool
  is_static : Bool
  visibility : CppVisibility
  is_signal : Bool
  kind : CppMethodKind

/-- A function argument (`CppFunctionArgument`). -/
structure CppFunctionArgument where
  argument_type : CppType
  name : String
  has_default_value : Bool

/-- A method item (`CppMethod` in `cpp_method.rs`; the field list follows
the construction site in `ensure_explicit_destructors`). -/
structure CppMethod where
  name : String
  class_membership : Option CppMethodClassMembership
  operator : Option CppOperator
  return_type : CppType
  arguments : List CppFunctionArgument
  allows_variadic_arguments : Bool
  include_file : String
  origin_location : Option CppOriginLocation
  template_arguments : Option (List CppType)

/-- One registered template instantiation: a concrete argument list
(`CppTemplateInstantiation`). -/
structure CppTemplateInstantiation where
  template_arguments : List CppType

/-- Kind of a type declaration: class (with base type references and
optional declared template parameter names) or enum (`CppTypeKind`). -/
inductive CppTypeKind where
  | Class (bases : List CppType) (template_arguments : Option (List String))
  | Enum

/-- A type declaration (`CppTypeData`). -/
structure CppTypeData where
  name : String
  include_file : String
  kind : CppTypeKind

/-- The shared API item database (`CppData`); the template-instantiation
hash map is embedded as an association list (it is only ever accessed by
key). -/
structure CppData where
  types : List CppTypeData
  methods : List CppMethod
  template_instantiations : List (String × List CppTemplateInstantiation)

/-- Modelled from the spec: `CppMethod::is_destructor` (`cpp_method.rs` is
not under `src/`); the data model states that a destructor's
class-membership kind is always `Destructor`. -/
def CppMethod.is_destructor (m : CppMethod) : Bool :=
  match m.class_membership with
  | some info => info.kind.is_destructor
  | none => false

/-- Modelled from the spec: `CppMethod::class_name` returns the owning
class name from the class-membership record, when present. -/
def CppMethod.class_name (m : CppMethod) : Option String :=
  m.class_membership.map (fun info => info.class_type.name)

/-- The `is_virtual` flag of a method's class membership (`false` for free
functions; the source unwraps, which is safe on destructors). -/
def CppMethod.memberIsVirtual (m : CppMethod) : Bool :=
  match m.class_membership with
  | some info => info.is_virtual
  | none => false

/-- Checks whether a type base matches `CppTypeBase::TemplateParameter`
(`is_template_parameter` in `cpp_type.rs`, modelled from the spec). -/
def CppTypeBase.is_template_parameter : CppTypeBase → Bool
  | .TemplateParameter _ _ => true
  | _ => false

mutual
/-- Modelled from the spec: `is_or_contains_template_parameter` — a type
base contains a template-parameter reference either directly or inside the
template argument list of a class base. -/
def CppTypeBase.is_or_contains_template_parameter : CppTypeBase → Bool
  | .TemplateParameter _ _ => true
  | .Class cb => classBaseContainsTP cb
  | _ => false

def classBaseContainsTP : CppTypeClassBase → Bool
  | .mk _ .noArgs => false
  | .mk _ (.args l) => listContainsTP l

def listContainsTP : CppTypeList → Bool
  | .nil => false
  | .cons (.mk _ _ b) ts => b.is_or_contains_template_parameter || listContainsTP ts
end

/-- `CppTypeData::is_class`. -/
def CppTypeData.is_class (t : CppTypeData) : Bool :=
  match t.kind with
  | .Class _ _ => true
  | .Enum => false

/-- `CppTypeData::default_template_parameters`: one placeholder template
parameter at nesting level 0 per declared template parameter name. -/
def CppTypeData.default_template_parameters (t : CppTypeData) : Option (List CppType) :=
  match t.kind with
  | .Class _ targs =>
    match targs with
    | none => none
    | some strings =>
      some ((List.range strings.length).map
        (fun num => CppType.mk false .None (.TemplateParameter 0 (Int.ofNat num))))
  | .Enum => none

/-- `CppTypeData::default_class_type`; the source panics on non-class
types, and is only called on class types — the non-class branch here is
unreachable at every call site below. -/
def CppTypeData.default_class_type (t : CppTypeData) : CppTypeClassBase :=
  .mk t.name (CppTypeArgs.ofOption t.default_template_parameters)

/-- The base type references of a class declaration (empty for enums). -/
def CppTypeData.classBases (t : CppTypeData) : List CppType :=
  match t.kind with
  | .Class bases _ => bases
  | .Enum => []

/-- The scan predicate shared by the destructor loops: a destructor item
belonging to class `name`. -/
def dtorPred (name : String) (m : CppMethod) : Bool :=
  m.is_destructor && m.class_name == some name

/-- The first destructor of `class_name` in database order (the scan loop
at the top of `has_virtual_destructor`). -/
def CppData.findOwnDtor (db : CppData) (class_name : String) : Option CppMethod :=
  db.methods.find? (dtorPred class_name)

/-- Class names of the direct bases of the first type entry named `name`
(empty when the entry is missing or not a class). -/
def CppData.directBaseNames (db : CppData) (name : String) : List String :=
  match db.types.find? (fun t => t.name == name) with
  | some t => t.classBases.filterMap (fun b =>
      match b.base with
      | .Class cb => some cb.name
      | _ => none)
  | none => []

/-- `CppData::has_virtual_destructor` (fuel-bounded embedding of the
unguarded recursion): virtuality of the class's own destructor when one
exists, otherwise true iff some direct class base's query is true; false
when the type entry is missing or no destructor is found.  The source
contains no logging call in this function. -/
def CppData.has_virtual_destructor : Nat → CppData → String → Bool
  | 0, _, _ => false
  | fuel + 1, db, class_name =>
    match db.findOwnDtor class_name with
    | some m => m.memberIsVirtual
    | none => (db.directBaseNames class_name).any
        (fun b => CppData.has_virtual_destructor fuel db b)

/-- `has_virtual_destructor` paired with the list of warnings it emits
through the logging sink; the source function contains no `log::warning`
call, so the list is empty on every input. -/
def CppData.has_virtual_destructorL (fuel : Nat) (db : CppData) (class_name : String) :
    Bool × List String :=
  (CppData.has_virtual_destructor fuel db class_name, [])

/-- Whether a fused argument option is `Some`. -/
def CppTypeArgs.hasArgs : CppTypeArgs → Bool
  | .noArgs => false
  | .args _ => true

/-- Short-circuiting combination of the per-base outcomes of the
`is_template_class` base loop: `none` entries are bases that are not
class references (skipped by the loop); the first `true` outcome returns
immediately, so the warnings of the outcomes after it are discarded —
exactly the warnings the aborted source loop would never emit. -/
def itcCombine : List (Option (Bool × List String)) → Bool × List String
  | [] => (false, [])
  | none :: rest => itcCombine rest
  | some r :: rest =>
    if r.1 then r
    else
      let c := itcCombine rest
      (c.1, r.2 ++ c.2)

/-- `CppData::is_template_class` paired with the warnings it emits: a type
entry that is missing produces the warning
`"Unknown type assumed to be non-template: <name>"` and counts as
non-template; a class is a template if it declares template parameters, or
some class base is used with template arguments or is itself (recursively)
a template class.  Fuel-bounded embedding of the unguarded recursion. -/
def CppData.is_template_classL : Nat → CppData → String → Bool × List String
  | 0, _, _ => (false, [])
  | fuel + 1, db, name =>
    match db.types.find? (fun t => t.name == name) with
    | some t =>
      match t.kind with
      | .Class bases targs =>
        if targs.isSome then (true, [])
        else itcCombine (bases.map (fun b =>
          match b.base with
          | .Class cb =>
            if cb.template_arguments.hasArgs then some (true, [])
            else some (CppData.is_template_classL fuel db cb.name)
          | _ => none))
      | .Enum => (false, [])
    | none => (false, ["Unknown type assumed to be non-template: " ++ name])

/-- The destructor synthesized for class type `t`
(the `CppMethod` literal pushed by `ensure_explicit_destructors`);
`db` is the database state at the moment `t` is processed, used for the
virtual-destructor query. -/
def synthesizedDtor (fuel : Nat) (db : CppData) (t : CppTypeData) : CppMethod :=
  { name := "~" ++ t.name
    class_membership := some
      { class_type := t.default_class_type
        is_virtual := CppData.has_virtual_destructor fuel db t.name
        is_pure_virtual := false
        is_const := false
        is_static := false
        visibility := .Public
        is_signal := false
        kind := .Destructor }
    operator := none
    return_type := CppType.void
    arguments := []
    allows_variadic_arguments := false
    include_file := t.include_file
    origin_location := none
    template_arguments := none }

/-- Whether `db` already holds a destructor for class `name`
(the `found_destructor` scan in `ensure_explicit_destructors`). -/
def CppData.hasDtorFor (db : CppData) (name : String) : Bool :=
  db.methods.any (dtorPred name)

/-- One iteration of the `ensure_explicit_destructors` loop: for a class
type lacking a destructor, append the synthesized destructor. -/
def ensureStep (fuel : Nat) (db : CppData) (t : CppTypeData) : CppData :=
  match t.kind with
  | .Class _ _ =>
    if db.hasDtorFor t.name then db
    else { db with methods := db.methods ++ [synthesizedDtor fuel db t] }
  | .Enum => db

/-- `CppData::ensure_explicit_destructors`: iterate over the type list
(which the loop never modifies), appending a synthesized destructor for
every class that has none at the moment it is processed. -/
def CppData.ensure_explicit_destructors (fuel : Nat) (db : CppData) : CppData :=
  db.types.foldl (ensureStep fuel) db

/-- The `while` loop of `generate_methods_with_omitted_args`, embedded by
structural recursion over the reversed argument list (the loop pops the
last argument while it has a default value, emitting the shortened copy
after each pop). -/
def popEmitAux (m : CppMethod) : List CppFunctionArgument → List CppMethod
  | [] => []
  | a :: rest =>
    if a.has_default_value then
      { m with arguments := rest.reverse } :: popEmitAux m rest
    else []

/-- The methods emitted for one method by
`generate_methods_with_omitted_args`. -/
def popEmit (m : CppMethod) : List CppMethod :=
  popEmitAux m m.arguments.reverse

/-- `CppData::generate_methods_with_omitted_args`: the outer guard of the
source (`arguments` nonempty with a default-valued last argument) is the
same condition as the first test of the `while` loop, so each method
contributes exactly `popEmit`. -/
def CppData.generate_methods_with_omitted_args (db : CppData) : CppData :=
  { db with methods := db.methods ++ (db.methods.map popEmit).flatten }

/-- The filter selecting a base class's own methods eligible for
inheritance propagation in `add_inherited_methods_from`: exact
class-membership match with the base reference, excluding constructors,
destructors and assignment operators. -/
def methodMatchesBase (base_name : String) (base_targs : CppTypeArgs)
    (m : CppMethod) : Bool :=
  match m.class_membership with
  | some info =>
    info.class_type.name == base_name &&
    beqCppTypeArgs info.class_type.template_arguments base_targs &&
    !info.kind.is_constructor && !info.kind.is_destructor &&
    !(m.operator == some CppOperator.Assignment)
  | none => false

/-- The copy of base method `bm` inserted into derived class `t`:
class membership rebound to the derived class's default instantiation,
include file taken from the derived type, origin location cleared.
The source panics when `class_membership` is absent; the filter above
guarantees it is present at every call site. -/
def rebindToDerived (t : CppTypeData) (bm : CppMethod) : CppMethod :=
  { bm with
    class_membership :=
      match bm.class_membership with
      | some info => some { info with class_type := t.default_class_type }
      | none => none
    include_file := t.include_file
    origin_location := none }

/-- The methods copied into derived type `t` for one base edge naming
`base_name`: the base's own eligible methods, minus those whose name is
already declared for `t` in the method list as it stood on entry to the
call (`db.methods`; new methods are only appended after the whole scan),
rebound to `t`. -/
def keptForEdge (db : CppData) (base_name : String) (t : CppTypeData)
    (cb : CppTypeClassBase) : List CppMethod :=
  ((db.methods.filter (methodMatchesBase base_name cb.template_arguments)).filter
    (fun bm => !(db.methods.any (fun m =>
      m.class_name == some t.name && m.name == bm.name)))).map (rebindToDerived t)

/-- The base-edge loop of `add_inherited_methods_from` for one derived
type `t`: the methods to copy and the derived class name recorded for
recursion, once per matching edge, in loop order. -/
def collectForBases (db : CppData) (base_name : String) (t : CppTypeData) :
    List CppType → List CppMethod × List String
  | [] => ([], [])
  | b :: rest =>
    let tail := collectForBases db base_name t rest
    match b.base with
    | .Class cb =>
      if cb.name == base_name then
        (keptForEdge db base_name t cb ++ tail.1, t.name :: tail.2)
      else tail
    | _ => tail

def collectForType (db : CppData) (base_name : String) (t : CppTypeData) :
    List CppMethod × List String :=
  collectForBases db base_name t t.classBases

/-- The full scan of `add_inherited_methods_from` over all types:
collected new methods and derived class names, in iteration order. -/
def collectNewAux (db : CppData) (base_name : String) :
    List CppTypeData → List CppMethod × List String
  | [] => ([], [])
  | t :: rest =>
    let p := collectForType db base_name t
    let tail := collectNewAux db base_name rest
    (p.1 ++ tail.1, p.2 ++ tail.2)

def collectNew (db : CppData) (base_name : String) : List CppMethod × List String :=
  collectNewAux db base_name db.types

/-- `CppData::add_inherited_methods_from` (fuel-bounded embedding of the
unguarded recursion): collect, append, then recurse into every derived
class that matched. -/
def add_inherited_methods_from : Nat → CppData → String → CppData
  | 0, db, _ => db
  | fuel + 1, db, base_name =>
    let p := collectNew db base_name
    let db2 := { db with methods := db.methods ++ p.1 }
    p.2.foldl (fun d n => add_inherited_methods_from fuel d n) db2

/-- `CppData::add_inherited_methods`: run the propagation from every type
name (the name list is snapshotted before the loop). -/
def CppData.add_inherited_methods (fuel : Nat) (db : CppData) : CppData :=
  (db.types.map (fun t => t.name)).foldl
    (fun d n => add_inherited_methods_from fuel d n) db

/-- Combination of the indirections of a substituted template parameter
and of the concrete argument; substitution fails when both are non-value
(modelled from the spec, which gives three indirection levels and a
fallible substitution). -/
def combineIndirection : CppTypeIndirection → CppTypeIndirection → Option CppTypeIndirection
  | .None, i => some i
  | i, .None => some i
  | _, _ => none

/-- Element lookup by a (possibly negative) `i32` index. -/
def listGetInt (l : List CppType) (idx : Int) : Option CppType :=
  if idx < 0 then none else l[idx.toNat]?

mutual
/-- Modelled from the spec: `CppType::instantiate` (`cpp_type.rs` is not
under `src/`) — substitutes every template-parameter reference at the
matching nesting level with the registered instantiation's concrete
argument of the same index, merging the const qualifier and the
indirection; references at other nesting levels are kept; class bases are
substituted inside their template argument lists; the function is fallible
(the call sites in `src/cpp_data.rs` use `try!`). -/
def CppType.instantiate (nl : Int) (insArgs : List CppType) :
    CppType → Except String CppType
  | .mk c ind b =>
    match b with
    | .TemplateParameter nl2 idx =>
      if nl2 == nl then
        match listGetInt insArgs idx with
        | some a =>
          match combineIndirection ind a.indirection with
          | some ind2 => .ok (.mk (c || a.is_const) ind2 a.base)
          | none => .error "failed to combine indirection levels"
        | none => .error "not enough template arguments"
      else .ok (.mk c ind (.TemplateParameter nl2 idx))
    | .Class cb =>
      match instantiateClassBase nl insArgs cb with
      | .ok cb2 => .ok (.mk c ind (.Class cb2))
      | .error e => .error e
    | b => .ok (.mk c ind b)

/-- Modelled from the spec: `CppTypeClassBase::instantiate_class` —
substitution inside a class base's template argument list. -/
def instantiateClassBase (nl : Int) (insArgs : List CppType) :
    CppTypeClassBase → Except String CppTypeClassBase
  | .mk n .noArgs => .ok (.mk n .noArgs)
  | .mk n (.args ts) =>
    match instantiateList nl insArgs ts with
    | .ok ts2 => .ok (.mk n (.args ts2))
    | .error e => .error e

def instantiateList (nl : Int) (insArgs : List CppType) :
    CppTypeList → Except String CppTypeList
  | .nil => .ok .nil
  | .cons t ts =>
    match CppType.instantiate nl insArgs t with
    | .error e => .error e
    | .ok t2 =>
      match instantiateList nl insArgs ts with
      | .error e => .error e
      | .ok ts2 => .ok (.cons t2 ts2)
end

/-- Modelled from the spec: `CppMethod::all_involved_types` — the type
references a method involves: return type, parameter types, conversion
operator target, class-membership owning type (order follows the spec's
listing). -/
def CppMethod.all_involved_types (m : CppMethod) : List CppType :=
  [m.return_type]
  ++ m.arguments.map (fun a => a.argument_type)
  ++ (match m.operator with
      | some (.Conversion t) => [t]
      | _ => [])
  ++ (match m.class_membership with
      | some info => [CppType.mk false .None (.Class info.class_type)]
      | none => [])

/-- Modelled from the spec: `CppType::to_cpp_code`, used only to embed a
conversion operator's concrete target type into the renamed method; no
claim inspects the rendered text, so the rendering is coarse. -/
def CppType.text (t : CppType) : String :=
  match t.base with
  | .Void => "void"
  | .BuiltIn n => n
  | .Class (.mk n _) => n
  | .TemplateParameter _ _ => "T"

/-- The substitution part of one `for ins` iteration of
`apply_instantiations_to_method`: instantiate the argument types, the
return type, the class-membership type and a conversion operator's target,
in source order, returning the updated method and the conversion target
when the method is a conversion operator. -/
def substituteMethod (nl : Int) (insArgs : List CppType) (m : CppMethod) :
    Except String (CppMethod × Option CppType) :=
  match mapArgsInstantiate nl insArgs m.arguments with
  | .error e => .error e
  | .ok args2 =>
    match m.return_type.instantiate nl insArgs with
    | .error e => .error e
    | .ok ret2 =>
      match (match m.class_membership with
             | some info =>
               (instantiateClassBase nl insArgs info.class_type).map
                 (fun ct => some { info with class_type := ct })
             | none => Except.ok none) with
      | .error e => .error e
      | .ok cm2 =>
        match (match m.operator with
               | some (.Conversion t) =>
                 (t.instantiate nl insArgs).map
                   (fun r => (some (CppOperator.Conversion r), some r))
               | op => Except.ok (op, none)) with
        | .error e => .error e
        | .ok (op2, conv) =>
          .ok ({ m with
                  arguments := args2
                  return_type := ret2
                  class_membership := cm2
                  operator := op2 }, conv)
where
  mapArgsInstantiate (nl : Int) (insArgs : List CppType) :
      List CppFunctionArgument → Except String (List CppFunctionArgument)
    | [] => .ok []
    | a :: rest =>
      match a.argument_type.instantiate nl insArgs with
      | .error e => .error e
      | .ok t2 =>
        match mapArgsInstantiate nl insArgs rest with
        | .error e => .error e
        | .ok rest2 => .ok ({ a with argument_type := t2 } :: rest2)

/-- One full `for ins` iteration of `apply_instantiations_to_method`:
substitute, then reject the candidate when any involved type still
contains a template parameter (the error message embeds the method's
short text, modelled here by its name), otherwise rename conversion
operators to embed the concrete target. -/
def applyOne (m : CppMethod) (nl : Int) (ins : CppTemplateInstantiation) :
    Except String CppMethod :=
  match substituteMethod nl ins.template_arguments m with
  | .error e => .error e
  | .ok (nm, conv) =>
    if nm.all_involved_types.any (fun t => t.base.is_or_contains_template_parameter) then
      .error ("found remaining template parameters: " ++ nm.name)
    else
      .ok (match conv with
           | some c => { nm with name := "operator " ++ c.text }
           | none => nm)

/-- `apply_instantiations_to_method`: process the registered
instantiations in order; the first rejected candidate aborts the whole
call with its error, discarding every method produced so far. -/
def apply_instantiations_to_method (m : CppMethod) (nl : Int) :
    List CppTemplateInstantiation → Except String (List CppMethod)
  | [] => .ok []
  | ins :: rest =>
    match applyOne m nl ins with
    | .error e => .error e
    | .ok nm =>
      match apply_instantiations_to_method m nl rest with
      | .error e => .error e
      | .ok ms => .ok (nm :: ms)

/-- Outcome of scanning one method's involved types in
`instantiate_templates`: the `assert!` on an empty template argument list
panics; the first class reference whose template arguments are all
unresolved template parameters and whose name has registered
instantiations triggers substitution (with the nesting level of the first
argument); otherwise the scan continues. -/
inductive ScanOutcome where
  | panic
  | trigger (name : String) (nested_level : Int)
  | nothing

/-- Nesting level of the first template argument; the fallback is
unreachable under the all-parameters guard of the scan. -/
def headNestedLevel : List CppType → Int
  | .mk _ _ (.TemplateParameter nl _) :: _ => nl
  | _ => 0

def scanInvolved (db : CppData) : List CppType → ScanOutcome
  | [] => .nothing
  | t :: ts =>
    match t.base with
    | .Class (.mk name (.args targsL)) =>
      let targs := targsL.toList
      if targs.isEmpty then .panic
      else if targs.all (fun a => a.base.is_template_parameter) then
        if (db.template_instantiations.lookup name).isSome then
          .trigger name (headNestedLevel targs)
        else scanInvolved db ts
      else scanInvolved db ts
    | _ => scanInvolved db ts

def scanMethod (db : CppData) (m : CppMethod) : ScanOutcome :=
  scanInvolved db m.all_involved_types

/-- The methods contributed by one method in `instantiate_templates`:
nothing when no involved type triggers, the successfully instantiated
methods when the triggered substitution succeeds, nothing when it fails
(the failure is logged and the loop moves to the next method); `none`
models the `assert!`/`panic!` paths. -/
def methodContribution (db : CppData) (m : CppMethod) : Option (List CppMethod) :=
  match scanMethod db m with
  | .panic => none
  | .nothing => some []
  | .trigger name nl =>
    some (match apply_instantiations_to_method m nl
            ((db.template_instantiations.lookup name).getD []) with
          | .ok ms => ms
          | .error _ => [])

def traverseContrib (db : CppData) : List CppMethod → Option (List CppMethod)
  | [] => some []
  | m :: ms =>
    match methodContribution db m, traverseContrib db ms with
    | some x, some xs => some (x ++ xs)
    | _, _ => none

/-- `CppData::instantiate_templates`: append every method's contribution;
`none` models a `panic!`. -/
def CppData.instantiate_templates (db : CppData) : Option CppData :=
  match traverseContrib db db.methods with
  | some news => some { db with methods := db.methods ++ news }
  | none => none

/-- Whether one registered instantiation of a method substitutes cleanly:
the substitution succeeds and its result contains no residual template
parameter (exactly the success condition of one `for ins` iteration of
`apply_instantiations_to_method`). -/
def cleanB (m : CppMethod) (nl : Int) (ins : CppTemplateInstantiation) : Bool :=
  match applyOne m nl ins with
  | .ok _ => true
  | .error _ => false

/-- Number of trailing default-valued parameters of an argument list (the
`k` of the default-argument expansion property). -/
def trailingDefaultCount (args : List CppFunctionArgument) : Nat :=
  (args.reverse.takeWhile (fun a => a.has_default_value)).length

/-- Names of every base of a class, direct and transitive, following the
spec's words for the destructor-virtuality property (fuel-bounded). -/
def CppData.allTransitiveBaseNames : Nat → CppData → String → List String
  | 0, _, _ => []
  | fuel + 1, db, name =>
    (db.directBaseNames name).flatMap
      (fun b => b :: CppData.allTransitiveBaseNames fuel db b)

/-- Follows the spec's words for the synthesized-destructor virtuality:
the disjunction of the virtual-destructor query results over every base,
direct and transitive. -/
def specBaseVirtualDisjunction (fuel : Nat) (db : CppData) (name : String) : Bool :=
  (CppData.allTransitiveBaseNames fuel db name).any
    (CppData.has_virtual_destructor fuel db)

/-! Concrete example data used by counterexamples and witnesses. -/

/-- The built-in `int` type. -/
def intT : CppType := .mk false .None (.BuiltIn "int")

/-- The template-parameter reference `T0` at nesting level 0. -/
def tp0 : CppType := .mk false .None (.TemplateParameter 0 0)

/-- A template-parameter reference at nesting level 1: substituting it for
`T0` leaves a residual unresolved template parameter. -/
def tpBad : CppType := .mk false .None (.TemplateParameter 1 0)

/-- The generic method `get() -> T` declared on the template class `Box`. -/
def mGet : CppMethod :=
  { name := "get"
    class_membership := some
      { class_type := .mk "Box" (.args (.cons tp0 .nil))
        is_virtual := false
        is_pure_virtual := false
        is_const := false
        is_static := false
        visibility := .Public
        is_signal := false
        kind := .Regular }
    operator := none
    return_type := tp0
    arguments := []
    allows_variadic_arguments := false
    include_file := "box.h"
    origin_location := some ⟨"box.h", 3⟩
    template_arguments := none }

/-- Template class `Box` with the single registered instantiation
`Box<int>` and the generic method `get`. -/
def boxDb : CppData :=
  { types := [⟨"Box", "box.h", .Class [] (some ["T"])⟩]
    methods := [mGet]
    template_instantiations := [("Box", [⟨[intT]⟩])] }

/-- `Box` with two registered instantiations: the first substitutes a
parameter reference and leaves a residual, the second is `Box<int>`. -/
def boxDb2 : CppData :=
  { types := [⟨"Box", "box.h", .Class [] (some ["T"])⟩]
    methods := [mGet]
    template_instantiations := [("Box", [⟨[tpBad]⟩, ⟨[intT]⟩])] }

/-- A value type reference to class `n`. -/
def classTypeRef (n : String) : CppType := .mk false .None (.Class (.mk n .noArgs))

/-- An explicitly declared destructor of class `cls` with the given
virtuality. -/
def dtorOf (cls : String) (virt : Bool) : CppMethod :=
  { name := "~" ++ cls
    class_membership := some
      { class_type := .mk cls .noArgs
        is_virtual := virt
        is_pure_virtual := false
        is_const := false
        is_static := false
        visibility := .Public
        is_signal := false
        kind := .Destructor }
    operator := none
    return_type := CppType.void
    arguments := []
    allows_variadic_arguments := false
    include_file := "f.h"
    origin_location := some ⟨"f.h", 1⟩
    template_arguments := none }

/-- Three-level hierarchy `D : B : G` where `G` declares a virtual
destructor, `B` declares a non-virtual destructor, and `D` declares
none. -/
def dbThreeLevel : CppData :=
  { types := [⟨"G", "f.h", .Class [] none⟩,
              ⟨"B", "f.h", .Class [classTypeRef "G"] none⟩,
              ⟨"D", "f.h", .Class [classTypeRef "B"] none⟩]
    methods := [dtorOf "G" true, dtorOf "B" false]
    template_instantiations := [] }

/-- An ordinary method `name` of class `cls` with the given arguments. -/
def plainMethod (cls name : String) (args : List CppFunctionArgument) : CppMethod :=
  { name := name
    class_membership := some
      { class_type := .mk cls .noArgs
        is_virtual := false
        is_pure_virtual := false
        is_const := false
        is_static := false
        visibility := .Public
        is_signal := false
        kind := .Regular }
    operator := none
    return_type := CppType.void
    arguments := args
    allows_variadic_arguments := false
    include_file := "f.h"
    origin_location := some ⟨"f.h", 2⟩
    template_arguments := none }

/-- `foo(int a, int b = 5, int c = 10)`: two trailing default-valued
parameters. -/
def mFoo : CppMethod :=
  plainMethod "W" "foo"
    [⟨intT, "a", false⟩, ⟨intT, "b", true⟩, ⟨intT, "c", true⟩]

/-- The first overload emitted for `foo`: `foo(int, int)`. -/
def mFooDrop1 : CppMethod :=
  plainMethod "W" "foo" [⟨intT, "a", false⟩, ⟨intT, "b", true⟩]

/-- A database holding only `foo`'s class and `foo`. -/
def dbFoo : CppData :=
  { types := [⟨"W", "f.h", .Class [] none⟩]
    methods := [mFoo]
    template_instantiations := [] }

/-- `Derived : Base` where `Base` declares methods `m` and `shared` and
`Derived` declares its own `shared`: propagation must copy `m` only. -/
def dbInh : CppData :=
  { types := [⟨"Base", "f.h", .Class [] none⟩,
              ⟨"Derived", "f.h", .Class [classTypeRef "Base"] none⟩]
    methods := [plainMethod "Base" "m" [], plainMethod "Base" "shared" [],
                plainMethod "Derived" "shared" []]
    template_instantiations := [] }

/-- `Base` with a virtual destructor and `Derived : Base` without one
(the spec's synthesis scenario). -/
def dbTwoLevel : CppData :=
  { types := [⟨"Base", "f.h", .Class [] none⟩,
              ⟨"Derived", "f.h", .Class [classTypeRef "Base"] none⟩]
    methods := [dtorOf "Base" true]
    template_instantiations := [] }

/-- The property C3 asserts of every method inserted by inheritance
propagation, relative to the method list `L` that existed before the
pass: no method of `L` already declares the same name for the same owning
class, the copy has a class-membership record whose kind is neither
constructor nor destructor, and the copy is not an assignment operator. -/
def inheritedOk (L : List CppMethod) (m2 : CppMethod) : Prop :=
  (L.any (fun m => m.class_name == m2.class_name && m.name == m2.name)) = false ∧
  (∃ info, m2.class_membership = some info ∧
    info.kind.is_constructor = false ∧ info.kind.is_destructor = false) ∧
  (m2.operator == some CppOperator.Assignment) = false

/-- The `Derived` type entry of `dbInh`. -/
def dbInhDerivedType : CppTypeData := ⟨"Derived", "f.h", .Class [classTypeRef "Base"] none⟩

/-- The copy of `Base::m` that inheritance propagation inserts into
`Derived` in `dbInh`. -/
def wInherited : CppMethod := rebindToDerived dbInhDerivedType (plainMethod "Base" "m" [])

/-- A database whose method list contains no destructor at all. -/
def dbNoDtor : CppData :=
  { types := [⟨"Base", "f.h", .Class [] none⟩,
              ⟨"Derived", "f.h", .Class [classTypeRef "Base"] none⟩]
    methods := [plainMethod "Base" "m" []]
    template_instantiations := [] }

end Ritual

/-!
Embedding of the newer database model used by the signal/slot classifier
(`detect_signals_and_slots.rs`).  Only the fields that the classifier
reads are represented; `CppName` is modelled as a plain string. -/

namespace RitualQt

/-- Parser origin of an item. -/
structure CppOriginLocation where
  include_file_path : String
  line : Nat
deriving DecidableEq

/-- Provenance of a database item; only parser-sourced items carry an
origin location and participate in classification. -/
inductive DatabaseItemSource where
  | CppParser (origin_location : CppOriginLocation)
  | Synthesized
deriving DecidableEq

/-- The class-membership flags of a method that the classifier writes. -/
structure FnMember where
  is_signal : Bool
  is_slot : Bool
deriving DecidableEq

/-- A method item.  `class_name` models the `class_name()` accessor
(modelled from the spec: the owning class recorded in the method's
class-membership record). -/
structure CppFunction where
  name : String
  class_name : Option String
  member : Option FnMember
deriving DecidableEq

/-- An inheritance edge (`base_data`): derived and base class names. -/
structure CppBaseData where
  derived_class_name : String
  base_class_name : String
deriving DecidableEq

/-- The `type_base` reference of a class declaration. -/
structure CppTypeBaseRef where
  name : String
deriving DecidableEq

inductive CppTypeDataKind where
  | Class (type_base : CppTypeBaseRef)
  | Enum
deriving DecidableEq

/-- A type declaration item. -/
structure CppTypeData where
  name : String
  kind : CppTypeDataKind
deriving DecidableEq

/-- The enumerated item variants the classifier distinguishes
(the source variant `Type` is `TypeItem` here since `Type` is a Lean
keyword). -/
inductive CppItemData where
  | TypeItem (t : CppTypeData)
  | Function (f : CppFunction)
  | ClassBase (b : CppBaseData)
  | OtherData
deriving DecidableEq

structure DatabaseItem where
  source : DatabaseItemSource
  cpp_data : CppItemData
deriving DecidableEq

/-- The current database.  `all_items()` of the processor also exposes
dependency databases; modelled from the spec as the current item set. -/
structure Database where
  items : List DatabaseItem
deriving DecidableEq

/-- `inherits`: `derived` transitively derives from `base` through the
recorded inheritance-edge items (fuel-bounded embedding of the unguarded
recursion). -/
def inherits (fuel : Nat) (db : Database) (derived base : String) : Bool :=
  match fuel with
  | 0 => false
  | fuel + 1 => db.items.any (fun it =>
      match it.cpp_data with
      | .ClassBase bd =>
        bd.derived_class_name == derived &&
        (bd.base_class_name == base || inherits fuel db bd.base_class_name base)
      | _ => false)

/-- The three marker kinds: signals opener, slots opener, generic
visibility opener. -/
inductive SectionType where
  | Signals
  | Slots
  | OtherSection
deriving DecidableEq

/-- A recorded marker: source line (0-based, from `enumerate`) and kind. -/
structure Section where
  line : Nat
  section_type : SectionType
deriving DecidableEq

def startsWithChars : List Char → List Char → Bool
  | [], _ => true
  | _ :: _, [] => false
  | a :: as, b :: bs => a == b && startsWithChars as bs

def hasSubChars (pat : List Char) : List Char → Bool
  | [] => startsWithChars pat []
  | b :: bs => startsWithChars pat (b :: bs) || hasSubChars pat bs

/-- Substring containment on strings. -/
def containsToken (line pat : String) : Bool :=
  hasSubChars pat.toList line.toList

/-- Modelled from the spec: the marker matcher (the regex engine is an
external crate).  A line matches a signals opener
(`(signals|Q_SIGNALS)\s*:`), else a slots opener, else a generic
visibility opener, mutually exclusively in that order; the optional
whitespace before the colon is not modelled (no claim exercises it). -/
def lineSectionType (line : String) : Option SectionType :=
  if containsToken line "signals:" || containsToken line "Q_SIGNALS:" then
    some .Signals
  else if containsToken line "slots:" || containsToken line "Q_SLOTS:" then
    some .Slots
  else if containsToken line "public:" || containsToken line "protected:" ||
          containsToken line "private:" then
    some .OtherSection
  else none

/-- One step of the `files` collection loop. -/
def filesStep (fuel : Nat) (db : Database) (acc : List String)
    (it : DatabaseItem) : List String :=
  match it.source, it.cpp_data with
  | .CppParser loc, .TypeItem t =>
    match t.kind with
    | .Class tb =>
      if inherits fuel db tb.name "QObject" then
        if acc.contains loc.include_file_path then acc
        else acc ++ [loc.include_file_path]
      else acc
    | .Enum => acc
  | _, _ => acc

/-- The include files touched by parser-sourced class declarations that
transitively derive from `QObject`, in first-appearance order (the
`files` hash set). -/
def filesOf (fuel : Nat) (db : Database) : List String :=
  db.items.foldl (filesStep fuel db) []

/-- The markers recorded for one file's lines, in line order. -/
def fileSections (lines : List String) : List Section :=
  lines.enum.filterMap (fun p => (lineSectionType p.2).map (fun st => Section.mk p.1 st))

/-- The per-file marker map: scan each touched file (failing like
`open_file` when its text is unavailable), recording its markers only when
at least one line matched. -/
def sectionsMapEx (headers : List (String × List String)) :
    List String → Except String (List (String × List Section))
  | [] => .ok []
  | f :: fs =>
    match headers.lookup f with
    | none => .error ("failed to open file: " ++ f)
    | some lines =>
      match sectionsMapEx headers fs with
      | .error e => .error e
      | .ok rest =>
        let secs := fileSections lines
        .ok (if secs.isEmpty then rest else (f, secs) :: rest)

/-- Insert-or-replace on an association list (hash map insertion). -/
def upsert (k : String) (v : List Section) :
    List (String × List Section) → List (String × List Section)
  | [] => [(k, v)]
  | (k2, v2) :: rest =>
    if k2 == k then (k, v) :: rest else (k2, v2) :: upsert k v rest

/-- One step of the per-class marker-map loop. -/
def spcStep (sm : List (String × List Section))
    (acc : List (String × List Section)) (it : DatabaseItem) :
    List (String × List Section) :=
  match it.source, it.cpp_data with
  | .CppParser loc, .TypeItem t =>
    match sm.lookup loc.include_file_path with
    | some secs =>
      upsert t.name (secs.filter (fun x => x.line + 1 ≥ loc.line)) acc
    | none => acc
  | _, _ => acc

/-- The per-class marker map: for every parser-sourced type declaration
whose include file has recorded markers, keep the markers located at or
after the class's own line (with the one-line adjustment of the source). -/
def sectionsPerClass (db : Database) (sm : List (String × List Section)) :
    List (String × List Section) :=
  db.items.foldl (spcStep sm) []

/-- The section a method at line `line` of class `cls` falls under: the
last in-scope marker at or before the adjusted line, defaulting to the
generic section when the class has no marker list or no marker qualifies. -/
def sectionForLine (spc : List (String × List Section)) (cls : Option String)
    (line : Nat) : SectionType :=
  match cls with
  | some c =>
    match spc.lookup c with
    | some secs =>
      match (secs.filter (fun x => x.line + 1 ≤ line)).getLast? with
      | some s => s.section_type
      | none => .OtherSection
    | none => .OtherSection
  | none => .OtherSection

/-- The flag update: a signals section sets `is_signal`, a slots section
sets `is_slot`, the generic section writes nothing. -/
def applySectionToMember (st : SectionType) (m : FnMember) : FnMember :=
  match st with
  | .Signals => { m with is_signal := true }
  | .Slots => { m with is_slot := true }
  | .OtherSection => m

/-- The classification of one database item (the final loop of
`detect_signals_and_slots`): only parser-sourced function items with a
class-membership record are updated. -/
def classifyItem (spc : List (String × List Section)) (it : DatabaseItem) :
    DatabaseItem :=
  match it.source, it.cpp_data with
  | .CppParser loc, .Function f =>
    let st := sectionForLine spc f.class_name loc.line
    let f2 : CppFunction := { f with member := f.member.map (applySectionToMember st) }
    { it with cpp_data := CppItemData.Function f2 }
  | _, _ => it

/-- `detect_signals_and_slots`: collect the touched files (returning the
database unchanged when there are none), scan their header text for
markers, scope the markers per class, then classify every item. -/
def detect_signals_and_slots (headers : List (String × List String)) (fuel : Nat)
    (db : Database) : Except String Database :=
  if (filesOf fuel db).isEmpty then .ok db
  else
    match sectionsMapEx headers (filesOf fuel db) with
    | .error e => .error e
    | .ok sm => .ok ⟨db.items.map (classifyItem (sectionsPerClass db sm))⟩

/-- The per-class marker map the classifier runs with (empty when the
marker scan fails, in which case the classification loop is never
reached). -/
def spcOf (headers : List (String × List String)) (fuel : Nat) (db : Database) :
    List (String × List Section) :=
  match sectionsMapEx headers (filesOf fuel db) with
  | .ok sm => sectionsPerClass db sm
  | .error _ => []

/-- Frame relation between an input item and the corresponding output
item of the classifier: provenance is preserved, non-function payloads
are unchanged, and a function keeps its name and class while its
signal/slot flags can only be switched on, never off. -/
def flagFrame (a b : DatabaseItem) : Prop :=
  b.source = a.source ∧
  match a.cpp_data, b.cpp_data with
  | .Function f, .Function g =>
      g.name = f.name ∧ g.class_name = f.class_name ∧
      (match f.member, g.member with
       | some mf, some mg =>
           (mf.is_signal = true → mg.is_signal = true) ∧
           (mf.is_slot = true → mg.is_slot = true)
       | none, none => True
       | _, _ => False)
  | da, dbd => dbd = da

/-- The `is_signal` flag carried by an item (false for non-functions and
flag-less functions). -/
def itemIsSignal (it : DatabaseItem) : Bool :=
  match it.cpp_data with
  | .Function f =>
    match f.member with
    | some mf => mf.is_signal
    | none => false
  | _ => false

/-- The `is_slot` flag carried by an item. -/
def itemIsSlot (it : DatabaseItem) : Bool :=
  match it.cpp_data with
  | .Function f =>
    match f.member with
    | some mf => mf.is_slot
    | none => false
  | _ => false

/-- Whether the classifier switched on a flag between input item `a` and
output item `b`. -/
def newlyFlagged (a b : DatabaseItem) : Bool :=
  (itemIsSignal b && !itemIsSignal a) || (itemIsSlot b && !itemIsSlot a)

/-! Concrete example data used by counterexamples and witnesses. -/

/-- The header text of the spec's classification example. -/
def exHeaders : List (String × List String) :=
  [("h.h", ["public:", "void a();", "signals:", "void b();", "slots:", "void c();"])]

/-- The database of the spec's classification example: class `C` derives
from `QObject`, is declared at line 0 of `h.h`, and has methods `a`, `b`,
`c` at lines 1, 3, 5. -/
def exDb : Database :=
  ⟨[ ⟨.Synthesized, .ClassBase ⟨"C", "QObject"⟩⟩,
     ⟨.CppParser ⟨"h.h", 0⟩, .TypeItem ⟨"C", .Class ⟨"C"⟩⟩⟩,
     ⟨.CppParser ⟨"h.h", 1⟩, .Function ⟨"a", some "C", some ⟨false, false⟩⟩⟩,
     ⟨.CppParser ⟨"h.h", 3⟩, .Function ⟨"b", some "C", some ⟨false, false⟩⟩⟩,
     ⟨.CppParser ⟨"h.h", 5⟩, .Function ⟨"c", some "C", some ⟨false, false⟩⟩⟩ ]⟩

/-- The classifier's output on the example database: `a` unchanged, `b`
flagged as a signal, `c` flagged as a slot. -/
def exOut : Database :=
  ⟨[ ⟨.Synthesized, .ClassBase ⟨"C", "QObject"⟩⟩,
     ⟨.CppParser ⟨"h.h", 0⟩, .TypeItem ⟨"C", .Class ⟨"C"⟩⟩⟩,
     ⟨.CppParser ⟨"h.h", 1⟩, .Function ⟨"a", some "C", some ⟨false, false⟩⟩⟩,
     ⟨.CppParser ⟨"h.h", 3⟩, .Function ⟨"b", some "C", some ⟨true, false⟩⟩⟩,
     ⟨.CppParser ⟨"h.h", 5⟩, .Function ⟨"c", some "C", some ⟨false, true⟩⟩⟩ ]⟩

/-- Header text for the file-granularity counterexample: `X` and `Y`
share `g.h`; the `signals:` marker at line 2 sits inside `Y`. -/
def cxHeaders : List (String × List String) :=
  [("g.h", ["class X : public QObject", "class Y", "signals:", "void m();", "end"])]

/-- `X` derives from `QObject`, `Y` does not; both are declared in `g.h`;
method `m` belongs to `Y` and follows the `signals:` marker. -/
def cxDb : Database :=
  ⟨[ ⟨.Synthesized, .ClassBase ⟨"X", "QObject"⟩⟩,
     ⟨.CppParser ⟨"g.h", 0⟩, .TypeItem ⟨"X", .Class ⟨"X"⟩⟩⟩,
     ⟨.CppParser ⟨"g.h", 1⟩, .TypeItem ⟨"Y", .Class ⟨"Y"⟩⟩⟩,
     ⟨.CppParser ⟨"g.h", 3⟩, .Function ⟨"m", some "Y", some ⟨false, false⟩⟩⟩ ]⟩

/-- The classifier's output on the file-granularity counterexample:
`Y::m` gets `is_signal = true` although `Y` does not derive from
`QObject`. -/
def cxOut : Database :=
  ⟨[ ⟨.Synthesized, .ClassBase ⟨"X", "QObject"⟩⟩,
     ⟨.CppParser ⟨"g.h", 0⟩, .TypeItem ⟨"X", .Class ⟨"X"⟩⟩⟩,
     ⟨.CppParser ⟨"g.h", 1⟩, .TypeItem ⟨"Y", .Class ⟨"Y"⟩⟩⟩,
     ⟨.CppParser ⟨"g.h", 3⟩, .Function ⟨"m", some "Y", some ⟨true, false⟩⟩⟩ ]⟩

end RitualQt

/-! # Theorems about the default-argument expander -/

namespace Ritual

theorem popEmitAux_length (m : CppMethod) (l : List CppFunctionArgument) :
    (popEmitAux m l).length
      = (l.takeWhile (fun a => a.has_default_value)).length := by
  induction l with
  | nil => rfl
  | cons a rest ih =>
    simp only [popEmitAux, List.takeWhile_cons]
    cases hd : a.has_default_value with
    | true => simp [ih]
    | false => simp

theorem popEmit_length (m : CppMethod) :
    (popEmit m).length = trailingDefaultCount m.arguments :=
  popEmitAux_length m m.arguments.reverse

theorem popEmitAux_arity (m : CppMethod) (l : List CppFunctionArgument) :
    ∀ i x, (popEmitAux m l)[i]? = some x →
      x.arguments.length = l.length - 1 - i := by
  induction l with
  | nil =>
    intro i x hx
    simp [popEmitAux] at hx
  | cons a rest ih =>
    intro i x hx
    cases hd : a.has_default_value with
    | false =>
      rw [popEmitAux, hd] at hx
      simp at hx
    | true =>
      rw [popEmitAux, hd] at hx
      simp only [if_true] at hx
      match i with
      | 0 =>
        simp only [List.getElem?_cons_zero, Option.some.injEq] at hx
        subst hx
        simp
      | i + 1 =>
        simp only [List.getElem?_cons_succ] at hx
        have := ih i x hx
        simp only [List.length_cons]
        omega

theorem popEmit_arity (m : CppMethod) :
    ∀ i x, (popEmit m)[i]? = some x →
      x.arguments.length = m.arguments.length - 1 - i := by
  intro i x hx
  have := popEmitAux_arity m m.arguments.reverse i x hx
  simpa using this

theorem popEmitAux_fields (m : CppMethod) (l : List CppFunctionArgument) :
    ∀ x ∈ popEmitAux m l, x.name = m.name ∧ x.return_type = m.return_type ∧
      x.class_membership = m.class_membership := by
  induction l with
  | nil =>
    intro x hx
    simp [popEmitAux] at hx
  | cons a rest ih =>
    intro x hx
    cases hd : a.has_default_value with
    | false =>
      rw [popEmitAux, hd] at hx
      simp at hx
    | true =>
      rw [popEmitAux, hd] at hx
      simp only [if_true] at hx
      rcases List.mem_cons.mp hx with hx0 | hxr
      · subst hx0
        exact ⟨rfl, rfl, rfl⟩
      · exact ih x hxr

theorem popEmit_fields (m : CppMethod) :
    ∀ x ∈ popEmit m, x.name = m.name ∧ x.return_type = m.return_type ∧
      x.class_membership = m.class_membership :=
  popEmitAux_fields m m.arguments.reverse

end Ritual

/-- C5: default-argument expansion appends, for every method, one reduced
copy per trailing default-valued parameter: a method with `k ≥ 1` trailing
default-valued parameters and arity `n` contributes exactly `k` new
overloads with arities `n-1` down to `n-k`, each keeping the original
name, return type and class membership; the original methods are left in
place unmodified; a method whose last parameter has no default value (or
has no parameters) contributes nothing. -/
theorem claim_C5 (db : Ritual.CppData) (m : Ritual.CppMethod) :
    (db.generate_methods_with_omitted_args).methods
      = db.methods ++ (db.methods.map Ritual.popEmit).flatten ∧
    (Ritual.popEmit m).length = Ritual.trailingDefaultCount m.arguments ∧
    (∀ i x, (Ritual.popEmit m)[i]? = some x →
      x.arguments.length = m.arguments.length - 1 - i) ∧
    (∀ x ∈ Ritual.popEmit m, x.name = m.name ∧ x.return_type = m.return_type ∧
      x.class_membership = m.class_membership) ∧
    (Ritual.trailingDefaultCount m.arguments = 0 → Ritual.popEmit m = []) :=
  ⟨rfl, Ritual.popEmit_length m, Ritual.popEmit_arity m, Ritual.popEmit_fields m,
   fun h0 => List.length_eq_zero.mp ((Ritual.popEmit_length m).trans h0)⟩

/-- Witness for C5 at the spec's scenario `foo(int a, int b = 5, int c = 10)`:
two trailing default-valued parameters, hence exactly two new overloads,
the first being `foo(int, int)`. -/
theorem claim_C5_witness :
    Ritual.trailingDefaultCount Ritual.mFoo.arguments = 2 ∧
    (Ritual.popEmit Ritual.mFoo).length = 2 ∧
    (Ritual.popEmit Ritual.mFoo)[0]? = some Ritual.mFooDrop1 ∧
    Ritual.mFooDrop1.arguments.length = 2 :=
  ⟨rfl, ((claim_C5 Ritual.dbFoo Ritual.mFoo).2.1).trans rfl, rfl,
   ((claim_C5 Ritual.dbFoo Ritual.mFoo).2.2.1 0 Ritual.mFooDrop1 rfl).trans rfl⟩

/-! # Theorems about the hierarchy queries -/

/-- C7: the virtual-destructor query returns the `is_virtual` flag of the
class's own destructor when one exists; otherwise it returns true exactly
when the query returns true for some direct class base (recursing); and
it returns false whenever no destructor exists anywhere in the database
(in particular when none is found in the hierarchy). -/
theorem claim_C7 (fuel : Nat) (db : Ritual.CppData) (name : String) :
    (∀ m, db.findOwnDtor name = some m →
      Ritual.CppData.has_virtual_destructor (fuel + 1) db name = m.memberIsVirtual) ∧
    (db.findOwnDtor name = none →
      Ritual.CppData.has_virtual_destructor (fuel + 1) db name
        = (db.directBaseNames name).any
            (fun b => Ritual.CppData.has_virtual_destructor fuel db b)) ∧
    (db.methods.all (fun m => !m.is_destructor) = true →
      Ritual.CppData.has_virtual_destructor fuel db name = false) := by
  refine ⟨?_, ?_, ?_⟩
  · intro m hm
    rw [Ritual.CppData.has_virtual_destructor, hm]
  · intro hm
    rw [Ritual.CppData.has_virtual_destructor, hm]
  · intro hall
    have key : ∀ (f : Nat) (nm : String),
        Ritual.CppData.has_virtual_destructor f db nm = false := by
      intro f
      induction f with
      | zero => intro nm; rfl
      | succ f ih =>
        intro nm
        rw [Ritual.CppData.has_virtual_destructor]
        have hnone : db.findOwnDtor nm = none := by
          apply List.find?_eq_none.mpr
          intro x hx
          have hx2 := List.all_eq_true.mp hall x hx
          simp only [Bool.not_eq_true'] at hx2
          simp [Ritual.dtorPred, hx2]
        rw [hnone]
        apply List.any_eq_false.mpr
        intro b _
        simp [ih b]
    exact key fuel name

/-- Witness for C7: in the three-level hierarchy, `B` has its own
non-virtual destructor (first conjunct), `D` has none so the query
recurses over its direct base `B` (second conjunct), and in a
destructor-free database every query returns false (third conjunct). -/
theorem claim_C7_witness :
    Ritual.dbThreeLevel.findOwnDtor "B" = some (Ritual.dtorOf "B" false) ∧
    Ritual.CppData.has_virtual_destructor 6 Ritual.dbThreeLevel "B"
      = (Ritual.dtorOf "B" false).memberIsVirtual ∧
    Ritual.dbThreeLevel.findOwnDtor "D" = none ∧
    Ritual.CppData.has_virtual_destructor 6 Ritual.dbThreeLevel "D"
      = (Ritual.dbThreeLevel.directBaseNames "D").any
          (fun b => Ritual.CppData.has_virtual_destructor 5 Ritual.dbThreeLevel b) ∧
    Ritual.dbNoDtor.methods.all (fun m => !m.is_destructor) = true ∧
    Ritual.CppData.has_virtual_destructor 6 Ritual.dbNoDtor "Derived" = false :=
  ⟨rfl,
   (claim_C7 5 Ritual.dbThreeLevel "B").1 (Ritual.dtorOf "B" false) rfl,
   rfl,
   (claim_C7 5 Ritual.dbThreeLevel "D").2.1 rfl,
   rfl,
   (claim_C7 5 Ritual.dbNoDtor "Derived").2.2 rfl⟩

/-- C9 counterexample: for the unknown class name `"Unknown"`,
`is_template_class` returns false and emits a warning, but
`has_virtual_destructor` returns false while emitting no warning at all —
the claim that both queries warn is false. -/
theorem claim_C9_counterexample :
    Ritual.CppData.is_template_classL 5 Ritual.dbThreeLevel "Unknown"
      = (false, ["Unknown type assumed to be non-template: Unknown"]) ∧
    Ritual.CppData.has_virtual_destructorL 5 Ritual.dbThreeLevel "Unknown"
      = (false, []) :=
  ⟨rfl, rfl⟩

/-- C9 (amended): on a class name with no type entry, `is_template_class`
logs the warning `"Unknown type assumed to be non-template: <name>"` and
returns false; `has_virtual_destructor` (when no destructor method for
that name exists either) returns false and logs nothing; neither
aborts. -/
theorem claim_C9_amended (fuel : Nat) (db : Ritual.CppData) (name : String)
    (h1 : db.types.find? (fun t => t.name == name) = none) :
    Ritual.CppData.is_template_classL (fuel + 1) db name
      = (false, ["Unknown type assumed to be non-template: " ++ name]) ∧
    (db.findOwnDtor name = none →
      Ritual.CppData.has_virtual_destructorL (fuel + 1) db name = (false, [])) := by
  constructor
  · rw [Ritual.CppData.is_template_classL, h1]
  · intro h2
    have hv : Ritual.CppData.has_virtual_destructor (fuel + 1) db name = false := by
      rw [Ritual.CppData.has_virtual_destructor, h2]
      unfold Ritual.CppData.directBaseNames
      rw [h1]
      rfl
    simp [Ritual.CppData.has_virtual_destructorL, hv]

/-- Witness for C9 (amended) at the unknown name `"Nope"`. -/
theorem claim_C9_amended_witness :
    Ritual.CppData.is_template_classL 5 Ritual.dbThreeLevel "Nope"
      = (false, ["Unknown type assumed to be non-template: Nope"]) ∧
    Ritual.CppData.has_virtual_destructorL 5 Ritual.dbThreeLevel "Nope"
      = (false, []) :=
  ⟨(claim_C9_amended 4 Ritual.dbThreeLevel "Nope" rfl).1,
   (claim_C9_amended 4 Ritual.dbThreeLevel "Nope" rfl).2 rfl⟩

/-! # Theorems about the destructor synthesizer -/

namespace Ritual

theorem dtorPred_synth (f : Nat) (d : CppData) (t : CppTypeData) (name : String) :
    dtorPred name (synthesizedDtor f d t) = (t.name == name) := by
  simp [dtorPred, synthesizedDtor, CppMethod.is_destructor, CppMethod.class_name,
    CppMethodKind.is_destructor, CppTypeData.default_class_type, CppTypeClassBase.name]

theorem ensureStep_types (f : Nat) (d : CppData) (t : CppTypeData) :
    (ensureStep f d t).types = d.types := by
  unfold ensureStep
  cases t.kind with
  | Class bs ta => dsimp only; split <;> rfl
  | Enum => rfl

theorem foldl_ensureStep_types (f : Nat) (ts : List CppTypeData) :
    ∀ d : CppData, (ts.foldl (ensureStep f) d).types = d.types := by
  induction ts with
  | nil => intro d; rfl
  | cons t ts ih =>
    intro d
    rw [List.foldl_cons, ih, ensureStep_types]

theorem ensureStep_class_no (f : Nat) (d : CppData) (t : CppTypeData)
    (bs : List CppType) (ta : Option (List String))
    (hk : t.kind = .Class bs ta) (h : d.hasDtorFor t.name = false) :
    ensureStep f d t = { d with methods := d.methods ++ [synthesizedDtor f d t] } := by
  unfold ensureStep
  rw [hk]
  simp [h]

theorem ensureStep_has_yes (f : Nat) (d : CppData) (t : CppTypeData)
    (h : d.hasDtorFor t.name = true) :
    ensureStep f d t = d := by
  unfold ensureStep
  cases t.kind with
  | Class bs ta => simp [h]
  | Enum => rfl

theorem ensureStep_enum (f : Nat) (d : CppData) (t : CppTypeData)
    (hk : t.kind = .Enum) :
    ensureStep f d t = d := by
  unfold ensureStep
  rw [hk]

/-- Once a class has a destructor, the synthesis fold neither adds nor
removes destructor items for it. -/
theorem foldl_ensureStep_filter_frame (f : Nat) (ts : List CppTypeData) :
    ∀ (d : CppData) (name : String), d.hasDtorFor name = true →
      (ts.foldl (ensureStep f) d).methods.filter (dtorPred name)
        = d.methods.filter (dtorPred name) ∧
      (ts.foldl (ensureStep f) d).hasDtorFor name = true := by
  induction ts with
  | nil => intro d name h; exact ⟨rfl, h⟩
  | cons t ts ih =>
    intro d name h
    rw [List.foldl_cons]
    cases hk : t.kind with
    | Enum =>
      rw [ensureStep_enum f d t hk]
      exact ih d name h
    | Class bs ta =>
      cases hdt : d.hasDtorFor t.name with
      | true =>
        rw [ensureStep_has_yes f d t hdt]
        exact ih d name h
      | false =>
        rw [ensureStep_class_no f d t bs ta hk hdt]
        have hne : (t.name == name) = false := by
          cases heq : t.name == name with
          | false => rfl
          | true =>
            exfalso
            have : t.name = name := by
              exact eq_of_beq heq
            rw [this] at hdt
            rw [hdt] at h
            exact Bool.false_ne_true h
        have hpred : dtorPred name (synthesizedDtor f d t) = false := by
          rw [dtorPred_synth, hne]
        have h2 : CppData.hasDtorFor
            { d with methods := d.methods ++ [synthesizedDtor f d t] } name = true := by
          unfold CppData.hasDtorFor at h ⊢
          simp only [List.any_append, h, Bool.true_or]
        have := ih { d with methods := d.methods ++ [synthesizedDtor f d t] } name h2
        rw [this.1]
        refine ⟨?_, this.2⟩
        rw [List.filter_append]
        simp [List.filter, hpred]

/-- While no type in the list carries the class's name, the synthesis fold
does not create a destructor for it. -/
theorem foldl_ensureStep_no_dtor (f : Nat) (ts : List CppTypeData) :
    ∀ (d : CppData) (name : String), d.hasDtorFor name = false →
      (∀ t2 ∈ ts, t2.name ≠ name) →
      (ts.foldl (ensureStep f) d).hasDtorFor name = false := by
  induction ts with
  | nil => intro d name h _; exact h
  | cons t ts ih =>
    intro d name h hnames
    rw [List.foldl_cons]
    have hstep : (ensureStep f d t).hasDtorFor name = false := by
      cases hk : t.kind with
      | Enum => rw [ensureStep_enum f d t hk]; exact h
      | Class bs ta =>
        cases hdt : d.hasDtorFor t.name with
        | true => rw [ensureStep_has_yes f d t hdt]; exact h
        | false =>
          rw [ensureStep_class_no f d t bs ta hk hdt]
          have hne : (t.name == name) = false := by
            cases heq : t.name == name with
            | false => rfl
            | true =>
              exact absurd (eq_of_beq heq) (hnames t (List.mem_cons_self t ts))
          unfold CppData.hasDtorFor at h ⊢
          simp only [List.any_append, h, List.any_cons, List.any_nil,
            dtorPred_synth, hne, Bool.or_self, Bool.or_false]
    exact ih (ensureStep f d t) name hstep (fun t2 ht2 => hnames t2 (List.mem_cons_of_mem t ht2))

theorem directBaseNames_types_eq {d1 d2 : CppData} (h : d1.types = d2.types)
    (name : String) : d1.directBaseNames name = d2.directBaseNames name := by
  unfold CppData.directBaseNames
  rw [h]

end Ritual

/-- C4 counterexample: in the hierarchy `D : B : G` where `G` has a
virtual destructor and `B` a non-virtual one, the destructor synthesized
for `D` is non-virtual, while the disjunction of the virtual-destructor
query over every base of `D`, direct and transitive, is true — so the
synthesized flag does not equal that disjunction. -/
theorem claim_C4_counterexample :
    Ritual.dbThreeLevel.hasDtorFor "D" = false ∧
    ((Ritual.CppData.ensure_explicit_destructors 10 Ritual.dbThreeLevel).methods.filter
      (Ritual.dtorPred "D")).map Ritual.CppMethod.memberIsVirtual = [false] ∧
    Ritual.specBaseVirtualDisjunction 10 Ritual.dbThreeLevel "D" = true :=
  ⟨rfl, rfl, rfl⟩

/-- C4 (amended): after synthesis, every class that had no explicit
destructor has exactly one destructor item — the synthesized one — whose
`is_virtual` flag equals the virtual-destructor query applied to the class
itself against the database state when the class is processed; since the
class then has no own destructor, that is the disjunction of the query
over its *direct* bases (each recursive query stopping at the first
declared destructor on a path), not the disjunction over every direct and
transitive base; and classes that already had a destructor keep exactly
their destructor items, regardless of virtuality. -/
theorem claim_C4_amended (g : Nat) (db : Ritual.CppData)
    (ts1 ts2 : List Ritual.CppTypeData) (t : Ritual.CppTypeData)
    (bs : List Ritual.CppType) (ta : Option (List String))
    (hts : db.types = ts1 ++ t :: ts2)
    (hk : t.kind = .Class bs ta)
    (hn1 : ∀ t2 ∈ ts1, t2.name ≠ t.name)
    (hnd : db.hasDtorFor t.name = false) :
    ((Ritual.CppData.ensure_explicit_destructors (g + 1) db).methods.filter
        (Ritual.dtorPred t.name)
      = [Ritual.synthesizedDtor (g + 1) (ts1.foldl (Ritual.ensureStep (g + 1)) db) t]) ∧
    ((Ritual.synthesizedDtor (g + 1) (ts1.foldl (Ritual.ensureStep (g + 1)) db) t).memberIsVirtual
      = (db.directBaseNames t.name).any
          (fun b => Ritual.CppData.has_virtual_destructor g
            (ts1.foldl (Ritual.ensureStep (g + 1)) db) b)) ∧
    (∀ nm, db.hasDtorFor nm = true →
      (Ritual.CppData.ensure_explicit_destructors (g + 1) db).methods.filter
          (Ritual.dtorPred nm)
        = db.methods.filter (Ritual.dtorPred nm)) := by
  have hMidTypes : (ts1.foldl (Ritual.ensureStep (g + 1)) db).types = db.types :=
    Ritual.foldl_ensureStep_types (g + 1) ts1 db
  have hMidNo : (ts1.foldl (Ritual.ensureStep (g + 1)) db).hasDtorFor t.name = false :=
    Ritual.foldl_ensureStep_no_dtor (g + 1) ts1 db t.name hnd hn1
  have hunfold : Ritual.CppData.ensure_explicit_destructors (g + 1) db
      = ts2.foldl (Ritual.ensureStep (g + 1))
          (Ritual.ensureStep (g + 1) (ts1.foldl (Ritual.ensureStep (g + 1)) db) t) := by
    unfold Ritual.CppData.ensure_explicit_destructors
    rw [hts, List.foldl_append, List.foldl_cons]
  set dMid := ts1.foldl (Ritual.ensureStep (g + 1)) db with hdMid
  have hstep : Ritual.ensureStep (g + 1) dMid t
      = { dMid with methods := dMid.methods ++ [Ritual.synthesizedDtor (g + 1) dMid t] } :=
    Ritual.ensureStep_class_no (g + 1) dMid t bs ta hk hMidNo
  have hMidAny : dMid.methods.any (Ritual.dtorPred t.name) = false := hMidNo
  have hMidFilter : dMid.methods.filter (Ritual.dtorPred t.name) = [] := by
    apply List.filter_eq_nil_iff.mpr
    intro m hm
    exact List.any_eq_false.mp hMidAny m hm
  have hpredT : Ritual.dtorPred t.name (Ritual.synthesizedDtor (g + 1) dMid t) = true := by
    rw [Ritual.dtorPred_synth]
    simp
  have hAfter : (Ritual.ensureStep (g + 1) dMid t).hasDtorFor t.name = true := by
    rw [hstep]
    unfold Ritual.CppData.hasDtorFor
    simp only [List.any_append, List.any_cons, List.any_nil, hpredT, Bool.or_true, Bool.true_or]
  refine ⟨?_, ?_, ?_⟩
  · rw [hunfold]
    have := Ritual.foldl_ensureStep_filter_frame (g + 1) ts2
      (Ritual.ensureStep (g + 1) dMid t) t.name hAfter
    rw [this.1, hstep]
    simp only [List.filter_append, hMidFilter, List.nil_append]
    simp [List.filter, hpredT]
  · show Ritual.CppData.has_virtual_destructor (g + 1) dMid t.name = _
    have hfind : dMid.findOwnDtor t.name = none := by
      apply List.find?_eq_none.mpr
      intro x hx
      exact List.any_eq_false.mp hMidAny x hx
    rw [Ritual.CppData.has_virtual_destructor, hfind,
      Ritual.directBaseNames_types_eq hMidTypes t.name]
  · intro nm hnm
    unfold Ritual.CppData.ensure_explicit_destructors
    exact (Ritual.foldl_ensureStep_filter_frame (g + 1) db.types db nm hnm).1

/-- Witness for C4 (amended) at the spec's scenario: `Base` has a virtual
destructor, `Derived : Base` has none; after synthesis `Derived` has
exactly one destructor, the synthesized one, and it is virtual. -/
theorem claim_C4_amended_witness :
    ((Ritual.CppData.ensure_explicit_destructors 10 Ritual.dbTwoLevel).methods.filter
        (Ritual.dtorPred "Derived")
      = [Ritual.synthesizedDtor 10
          ([⟨"Base", "f.h", .Class [] none⟩].foldl (Ritual.ensureStep 10) Ritual.dbTwoLevel)
          ⟨"Derived", "f.h", .Class [Ritual.classTypeRef "Base"] none⟩]) ∧
    ((Ritual.CppData.ensure_explicit_destructors 10 Ritual.dbTwoLevel).methods.filter
        (Ritual.dtorPred "Derived")).map Ritual.CppMethod.memberIsVirtual = [true] := by
  have h := claim_C4_amended 9 Ritual.dbTwoLevel
    [⟨"Base", "f.h", .Class [] none⟩] []
    ⟨"Derived", "f.h", .Class [Ritual.classTypeRef "Base"] none⟩
    [Ritual.classTypeRef "Base"] none
    rfl rfl (by decide) rfl
  exact ⟨h.1, by rw [h.1]; rfl⟩

/-! # Theorems about the inheritance propagator -/

namespace Ritual

theorem inheritedOk_mono {L1 L2 : List CppMethod} {m2 : CppMethod}
    (h : inheritedOk (L1 ++ L2) m2) : inheritedOk L1 m2 := by
  obtain ⟨h1, h2, h3⟩ := h
  refine ⟨?_, h2, h3⟩
  rw [List.any_append] at h1
  exact (Bool.or_eq_false_iff.mp h1).1

theorem rebind_class_name (t : CppTypeData) (bm : CppMethod)
    {info : CppMethodClassMembership} (hcm : bm.class_membership = some info) :
    (rebindToDerived t bm).class_name = some t.name := by
  unfold rebindToDerived CppMethod.class_name
  rw [hcm]
  simp [CppTypeData.default_class_type, CppTypeClassBase.name]

theorem keptForEdge_ok (db : CppData) (bn : String) (t : CppTypeData)
    (cb : CppTypeClassBase) :
    ∀ m2 ∈ keptForEdge db bn t cb, inheritedOk db.methods m2 := by
  intro m2 hm2
  unfold keptForEdge at hm2
  rcases List.mem_map.mp hm2 with ⟨bm, hbm, hrb⟩
  rcases List.mem_filter.mp hbm with ⟨hbm2, hclash⟩
  rcases List.mem_filter.mp hbm2 with ⟨_, hmatch⟩
  unfold methodMatchesBase at hmatch
  cases hcm : bm.class_membership with
  | none =>
    rw [hcm] at hmatch
    exact absurd hmatch (by simp)
  | some info =>
    rw [hcm] at hmatch
    simp only [Bool.and_eq_true, Bool.not_eq_true'] at hmatch
    obtain ⟨⟨⟨⟨_, _⟩, hc⟩, hd⟩, hop⟩ := hmatch
    subst hrb
    refine ⟨?_, ?_, ?_⟩
    · have hclash2 : (db.methods.any (fun m =>
          m.class_name == some t.name && m.name == bm.name)) = false := by
        simpa using hclash
      have hcn := rebind_class_name t bm hcm
      have hnm : (rebindToDerived t bm).name = bm.name := rfl
      simpa only [hcn, hnm] using hclash2
    · refine ⟨{ info with class_type := t.default_class_type }, ?_, hc, hd⟩
      simp [rebindToDerived, hcm]
    · simpa [rebindToDerived] using hop

theorem collectForBases_ok (db : CppData) (bn : String) (t : CppTypeData) :
    ∀ l, ∀ m2 ∈ (collectForBases db bn t l).1, inheritedOk db.methods m2 := by
  intro l
  induction l with
  | nil =>
    intro m2 hm2
    simp [collectForBases] at hm2
  | cons b rest ih =>
    intro m2 hm2
    rw [collectForBases] at hm2
    cases hb : b.base with
    | Class cb =>
      rw [hb] at hm2
      dsimp only at hm2
      by_cases hcb : (cb.name == bn) = true
      · rw [if_pos hcb] at hm2
        rcases List.mem_append.mp hm2 with h | h
        · exact keptForEdge_ok db bn t cb m2 h
        · exact ih m2 h
      · rw [if_neg hcb] at hm2
        exact ih m2 hm2
    | Void =>
      rw [hb] at hm2
      exact ih m2 hm2
    | BuiltIn n =>
      rw [hb] at hm2
      exact ih m2 hm2
    | TemplateParameter nl i =>
      rw [hb] at hm2
      exact ih m2 hm2

theorem collectNewAux_ok (db : CppData) (bn : String) :
    ∀ ts, ∀ m2 ∈ (collectNewAux db bn ts).1, inheritedOk db.methods m2 := by
  intro ts
  induction ts with
  | nil =>
    intro m2 hm2
    simp [collectNewAux] at hm2
  | cons t rest ih =>
    intro m2 hm2
    rw [collectNewAux] at hm2
    rcases List.mem_append.mp hm2 with h | h
    · exact collectForBases_ok db bn t t.classBases m2 h
    · exact ih m2 h

theorem collectNew_ok (db : CppData) (bn : String) :
    ∀ m2 ∈ (collectNew db bn).1, inheritedOk db.methods m2 :=
  collectNewAux_ok db bn db.types

/-- `add_inherited_methods_from` only appends methods, preserves the type
list, and every appended method satisfies `inheritedOk` relative to the
methods present on entry. -/
theorem add_from_spec (fuel : Nat) :
    ∀ (db : CppData) (bn : String),
      ∃ extra, (add_inherited_methods_from fuel db bn).methods = db.methods ++ extra ∧
        (add_inherited_methods_from fuel db bn).types = db.types ∧
        ∀ m2 ∈ extra, inheritedOk db.methods m2 := by
  induction fuel with
  | zero =>
    intro db bn
    exact ⟨[], by simp [add_inherited_methods_from], rfl, by simp⟩
  | succ fuel ih =>
    intro db bn
    have foldlSpec : ∀ (names : List String) (d : CppData),
        ∃ extra,
          ((names.foldl (fun d n => add_inherited_methods_from fuel d n) d).methods
            = d.methods ++ extra) ∧
          ((names.foldl (fun d n => add_inherited_methods_from fuel d n) d).types
            = d.types) ∧
          ∀ m2 ∈ extra, inheritedOk d.methods m2 := by
      intro names
      induction names with
      | nil =>
        intro d
        exact ⟨[], by simp, rfl, by simp⟩
      | cons n ns ihn =>
        intro d
        obtain ⟨e1, he1, ht1, hg1⟩ := ih d n
        obtain ⟨e2, he2, ht2, hg2⟩ := ihn (add_inherited_methods_from fuel d n)
        refine ⟨e1 ++ e2, ?_, ?_, ?_⟩
        · rw [List.foldl_cons, he2, he1, List.append_assoc]
        · rw [List.foldl_cons, ht2, ht1]
        · intro m2 hm2
          rcases List.mem_append.mp hm2 with h | h
          · exact hg1 m2 h
          · have hgood := hg2 m2 h
            rw [he1] at hgood
            exact inheritedOk_mono hgood
    obtain ⟨e2, he2, ht2, hg2⟩ := foldlSpec (collectNew db bn).2
      { db with methods := db.methods ++ (collectNew db bn).1 }
    refine ⟨(collectNew db bn).1 ++ e2, ?_, ?_, ?_⟩
    · show (add_inherited_methods_from (fuel + 1) db bn).methods = _
      rw [add_inherited_methods_from]
      rw [he2]
      rw [List.append_assoc]
    · rw [add_inherited_methods_from]
      rw [ht2]
    · intro m2 hm2
      rcases List.mem_append.mp hm2 with h | h
      · exact collectNew_ok db bn m2 h
      · have hgood := hg2 m2 h
        exact inheritedOk_mono hgood

/-- The spec of the fold of `add_inherited_methods` over all type
names. -/
theorem foldl_add_from_spec (fuel : Nat) (names : List String) :
    ∀ (d : CppData),
      ∃ extra,
        ((names.foldl (fun d n => add_inherited_methods_from fuel d n) d).methods
          = d.methods ++ extra) ∧
        ∀ m2 ∈ extra, inheritedOk d.methods m2 := by
  induction names with
  | nil =>
    intro d
    exact ⟨[], by simp, by simp⟩
  | cons n ns ihn =>
    intro d
    obtain ⟨e1, he1, _, hg1⟩ := add_from_spec fuel d n
    obtain ⟨e2, he2, hg2⟩ := ihn (add_inherited_methods_from fuel d n)
    refine ⟨e1 ++ e2, ?_, ?_⟩
    · rw [List.foldl_cons, he2, he1, List.append_assoc]
    · intro m2 hm2
      rcases List.mem_append.mp hm2 with h | h
      · exact hg1 m2 h
      · have hgood := hg2 m2 h
        rw [he1] at hgood
        exact inheritedOk_mono hgood

end Ritual

/-- C3: inheritance propagation only appends methods, and every appended
method (i) does not share its name with any method already declared for
the same derived class before the pass, (ii) carries a class-membership
record whose kind is neither constructor nor destructor, and (iii) is not
an assignment operator — so constructors, destructors and assignment
operators are never propagated, and a name already declared in the
derived class suppresses propagation. -/
theorem claim_C3 (fuel : Nat) (db : Ritual.CppData) :
    ∃ extra, (db.add_inherited_methods fuel).methods = db.methods ++ extra ∧
      ∀ m2 ∈ extra, Ritual.inheritedOk db.methods m2 := by
  unfold Ritual.CppData.add_inherited_methods
  exact Ritual.foldl_add_from_spec fuel (db.types.map (fun t => t.name)) db

/-- Witness for C3 on `dbInh`: the pass appends exactly the copy of
`Base::m` rebound to `Derived` (the name-clashing `shared` is not
copied), and that copy satisfies every property of C3. -/
theorem claim_C3_witness :
    (Ritual.CppData.add_inherited_methods 5 Ritual.dbInh).methods
      = Ritual.dbInh.methods ++ [Ritual.wInherited] ∧
    Ritual.inheritedOk Ritual.dbInh.methods Ritual.wInherited := by
  obtain ⟨extra, h1, h2⟩ := claim_C3 5 Ritual.dbInh
  have h3 : Ritual.dbInh.methods ++ [Ritual.wInherited]
      = Ritual.dbInh.methods ++ extra := h1
  have h4 : extra = [Ritual.wInherited] := (List.append_cancel_left h3).symm
  subst h4
  exact ⟨h1, h2 Ritual.wInherited (List.mem_singleton.mpr rfl)⟩

/-! # Theorems about the template instantiator -/

namespace Ritual

theorem all_involved_types_rename (nm : CppMethod) (s : String) :
    CppMethod.all_involved_types { nm with name := s } = nm.all_involved_types := rfl

theorem paramfree_of_any_false {l : List CppType}
    (h : (l.any (fun t => t.base.is_or_contains_template_parameter)) = false) :
    (l.all (fun t => !t.base.is_or_contains_template_parameter)) = true := by
  apply List.all_eq_true.mpr
  intro x hx
  have := List.any_eq_false.mp h x hx
  simpa using this

theorem applyOne_ok_paramfree {m : CppMethod} {nl : Int}
    {ins : CppTemplateInstantiation} {m2 : CppMethod}
    (h : applyOne m nl ins = .ok m2) :
    (m2.all_involved_types).all
      (fun t => !t.base.is_or_contains_template_parameter) = true := by
  unfold applyOne at h
  cases hs : substituteMethod nl ins.template_arguments m with
  | error e =>
    rw [hs] at h
    exact absurd h (by simp)
  | ok p =>
    obtain ⟨nm, conv⟩ := p
    rw [hs] at h
    dsimp only at h
    cases hany : nm.all_involved_types.any
        (fun t => t.base.is_or_contains_template_parameter) with
    | true =>
      rw [hany] at h
      simp at h
    | false =>
      rw [hany] at h
      simp only [Bool.false_eq_true, if_false, Except.ok.injEq] at h
      subst h
      cases conv with
      | some c =>
        rw [all_involved_types_rename]
        exact paramfree_of_any_false hany
      | none =>
        exact paramfree_of_any_false hany

theorem cleanB_eq_true_of_ok {m : CppMethod} {nl : Int}
    {ins : CppTemplateInstantiation} {m2 : CppMethod}
    (h : applyOne m nl ins = .ok m2) : cleanB m nl ins = true := by
  unfold cleanB
  rw [h]

theorem cleanB_eq_false_of_error {m : CppMethod} {nl : Int}
    {ins : CppTemplateInstantiation} {e : String}
    (h : applyOne m nl ins = .error e) : cleanB m nl ins = false := by
  unfold cleanB
  rw [h]

/-- The per-method behavior of `apply_instantiations_to_method`: a
successful run yields exactly one method per registered instantiation, all
of them free of template-parameter references, and it succeeds exactly
when every candidate substitutes cleanly. -/
theorem apply_spec (m : CppMethod) (nl : Int) :
    ∀ I : List CppTemplateInstantiation,
      (∀ ms, apply_instantiations_to_method m nl I = .ok ms →
        ms.length = I.length ∧
        ∀ m2 ∈ ms, (m2.all_involved_types).all
          (fun t => !t.base.is_or_contains_template_parameter) = true) ∧
      ((∃ ms, apply_instantiations_to_method m nl I = .ok ms)
        ↔ I.all (cleanB m nl) = true) := by
  intro I
  induction I with
  | nil =>
    constructor
    · intro ms hms
      rw [apply_instantiations_to_method] at hms
      injection hms with h
      subst h
      exact ⟨rfl, by simp⟩
    · constructor
      · intro _
        rfl
      · intro _
        exact ⟨[], rfl⟩
  | cons ins rest ih =>
    constructor
    · intro ms hms
      rw [apply_instantiations_to_method] at hms
      cases h1 : applyOne m nl ins with
      | error e =>
        rw [h1] at hms
        exact absurd hms (by simp)
      | ok nm =>
        rw [h1] at hms
        cases h2 : apply_instantiations_to_method m nl rest with
        | error e =>
          rw [h2] at hms
          exact absurd hms (by simp)
        | ok ms' =>
          rw [h2] at hms
          injection hms with h3
          subst h3
          obtain ⟨hlen, hfree⟩ := (ih.1) ms' h2
          refine ⟨by simp [hlen], ?_⟩
          intro m2 hm2
          rcases List.mem_cons.mp hm2 with h | h
          · subst h
            exact applyOne_ok_paramfree h1
          · exact hfree m2 h
    · constructor
      · rintro ⟨ms, hms⟩
        rw [apply_instantiations_to_method] at hms
        cases h1 : applyOne m nl ins with
        | error e =>
          rw [h1] at hms
          exact absurd hms (by simp)
        | ok nm =>
          rw [h1] at hms
          cases h2 : apply_instantiations_to_method m nl rest with
          | error e =>
            rw [h2] at hms
            exact absurd hms (by simp)
          | ok ms' =>
            have hall := (ih.2).mp ⟨ms', h2⟩
            simp [List.all_cons, cleanB_eq_true_of_ok h1, hall]
      · intro hall
        rw [List.all_cons, Bool.and_eq_true] at hall
        obtain ⟨hc, hrest⟩ := hall
        obtain ⟨ms', hms'⟩ := (ih.2).mpr hrest
        cases h1 : applyOne m nl ins with
        | error e =>
          rw [cleanB_eq_false_of_error h1] at hc
          exact absurd hc (by simp)
        | ok nm =>
          refine ⟨nm :: ms', ?_⟩
          rw [apply_instantiations_to_method, h1, hms']

end Ritual

/-- C1: for a method that is generic over a template class with
registered instantiation set `I` (the scan of its involved types triggers
on that class), instantiation appends exactly `|I|` new methods when every
registered instantiation substitutes without leaving a residual
unresolved template parameter, and appends `0` methods otherwise; every
appended method's involved types (return type, parameter types,
conversion-operator target, class-membership type) contain no
template-parameter reference.  `methodContribution` is the per-method
block that `instantiate_templates` appends. -/
theorem claim_C1 (db : Ritual.CppData) (m : Ritual.CppMethod) (name : String)
    (nl : Int) (I : List Ritual.CppTemplateInstantiation)
    (h1 : Ritual.scanMethod db m = .trigger name nl)
    (h2 : db.template_instantiations.lookup name = some I) :
    ∃ ms, Ritual.methodContribution db m = some ms ∧
      (I.all (Ritual.cleanB m nl) = true → ms.length = I.length) ∧
      (I.all (Ritual.cleanB m nl) = false → ms = []) ∧
      ∀ m2 ∈ ms, (m2.all_involved_types).all
        (fun t => !t.base.is_or_contains_template_parameter) = true := by
  unfold Ritual.methodContribution
  rw [h1]
  dsimp only
  rw [h2]
  simp only [Option.getD_some]
  cases happ : Ritual.apply_instantiations_to_method m nl I with
  | ok ms =>
    refine ⟨ms, rfl, ?_, ?_, ?_⟩
    · intro _
      exact ((Ritual.apply_spec m nl I).1 ms happ).1
    · intro hfalse
      have := (Ritual.apply_spec m nl I).2.mp ⟨ms, happ⟩
      rw [this] at hfalse
      exact absurd hfalse (by simp)
    · exact ((Ritual.apply_spec m nl I).1 ms happ).2
  | error e =>
    refine ⟨[], rfl, ?_, fun _ => rfl, by simp⟩
    intro htrue
    obtain ⟨ms', hms'⟩ := (Ritual.apply_spec m nl I).2.mpr htrue
    rw [happ] at hms'
    exact absurd hms' (by simp)

/-- Witness for C1 at the spec's scenario: generic `get() -> T` on `Box`
with the single registered instantiation `Box<int>` contributes exactly
one method. -/
theorem claim_C1_witness :
    Ritual.scanMethod Ritual.boxDb Ritual.mGet = .trigger "Box" 0 ∧
    Ritual.boxDb.template_instantiations.lookup "Box" = some [⟨[Ritual.intT]⟩] ∧
    ∃ ms, Ritual.methodContribution Ritual.boxDb Ritual.mGet = some ms ∧
      ms.length = 1 := by
  refine ⟨rfl, rfl, ?_⟩
  obtain ⟨ms, hc, hlen, _, _⟩ :=
    claim_C1 Ritual.boxDb Ritual.mGet "Box" 0 [⟨[Ritual.intT]⟩] rfl rfl
  exact ⟨ms, hc, (hlen rfl).trans rfl⟩

/-- C2 counterexample: with registered instantiations `[bad, good]` for
`Box`, where `bad` substitutes to a type still containing a template
parameter and `good` is the clean `Box<int>`, the whole method is
abandoned: `apply_instantiations_to_method` returns an error and the
method contributes no instantiated method at all, although the `good`
candidate alone is clean (it produces a method when it is the only
registered instantiation).  This refutes the claim that a rejected
candidate only suppresses itself while later candidates of the same
method still produce methods. -/
theorem claim_C2_counterexample :
    Ritual.cleanB Ritual.mGet 0 ⟨[Ritual.tpBad]⟩ = false ∧
    Ritual.cleanB Ritual.mGet 0 ⟨[Ritual.intT]⟩ = true ∧
    Ritual.apply_instantiations_to_method Ritual.mGet 0 [⟨[Ritual.tpBad]⟩, ⟨[Ritual.intT]⟩]
      = .error "found remaining template parameters: get" ∧
    Ritual.methodContribution Ritual.boxDb2 Ritual.mGet = some [] ∧
    (Ritual.methodContribution Ritual.boxDb Ritual.mGet).map List.length = some 1 :=
  ⟨rfl, rfl, rfl, rfl, rfl⟩

/-- C2 (amended): a candidate substitution whose result still contains an
unresolved template parameter is rejected with an error (which the caller
logs at the fine-grained level, not fatally), and the rejection aborts the
instantiation of that whole method: no method is produced for any of its
candidates, even clean ones; the pipeline then continues with the next
method. -/
theorem claim_C2_amended (m : Ritual.CppMethod) (nl : Int)
    (I : List Ritual.CppTemplateInstantiation)
    (h : I.all (Ritual.cleanB m nl) = false) :
    (∃ e, Ritual.apply_instantiations_to_method m nl I = .error e) ∧
    ∀ (db : Ritual.CppData) (name : String),
      Ritual.scanMethod db m = .trigger name nl →
      db.template_instantiations.lookup name = some I →
      Ritual.methodContribution db m = some [] := by
  have herr : ∃ e, Ritual.apply_instantiations_to_method m nl I = .error e := by
    cases happ : Ritual.apply_instantiations_to_method m nl I with
    | ok ms =>
      have := (Ritual.apply_spec m nl I).2.mp ⟨ms, happ⟩
      rw [this] at h
      exact absurd h (by simp)
    | error e => exact ⟨e, rfl⟩
  refine ⟨herr, ?_⟩
  intro db name h1 h2
  unfold Ritual.methodContribution
  rw [h1]
  dsimp only
  rw [h2]
  simp only [Option.getD_some]
  obtain ⟨e, he⟩ := herr
  rw [he]

/-- Witness for C2 (amended) at the two-candidate `Box` database. -/
theorem claim_C2_amended_witness :
    Ritual.methodContribution Ritual.boxDb2 Ritual.mGet = some [] ∧
    ∃ e, Ritual.apply_instantiations_to_method Ritual.mGet 0
      [⟨[Ritual.tpBad]⟩, ⟨[Ritual.intT]⟩] = .error e := by
  have h := claim_C2_amended Ritual.mGet 0 [⟨[Ritual.tpBad]⟩, ⟨[Ritual.intT]⟩] rfl
  exact ⟨h.2 Ritual.boxDb2 "Box" rfl rfl, h.1⟩

/-! # Theorems about the signal/slot classifier -/

namespace RitualQt

theorem flagFrame_refl (a : DatabaseItem) : flagFrame a a := by
  unfold flagFrame
  refine ⟨rfl, ?_⟩
  cases a.cpp_data with
  | Function f =>
    refine ⟨rfl, rfl, ?_⟩
    cases f.member with
    | some mf => exact ⟨fun h => h, fun h => h⟩
    | none => trivial
  | TypeItem t => rfl
  | ClassBase b => rfl
  | OtherData => rfl

theorem classifyItem_frame (spc : List (String × List Section)) (it : DatabaseItem) :
    flagFrame it (classifyItem spc it) := by
  obtain ⟨src, data⟩ := it
  cases src with
  | Synthesized => exact flagFrame_refl _
  | CppParser loc =>
    cases data with
    | Function f =>
      unfold classifyItem flagFrame
      dsimp only
      refine ⟨rfl, rfl, rfl, ?_⟩
      cases f.member with
      | none => trivial
      | some mf =>
        dsimp only [Option.map_some']
        cases hst : sectionForLine spc f.class_name loc.line with
        | Signals =>
          unfold applySectionToMember
          exact ⟨fun _ => rfl, fun h => h⟩
        | Slots =>
          unfold applySectionToMember
          exact ⟨fun h => h, fun _ => rfl⟩
        | OtherSection =>
          unfold applySectionToMember
          exact ⟨fun h => h, fun h => h⟩
    | TypeItem t => exact flagFrame_refl _
    | ClassBase b => exact flagFrame_refl _
    | OtherData => exact flagFrame_refl _

theorem classifyItem_other (spc : List (String × List Section))
    (loc : CppOriginLocation) (f : CppFunction)
    (hst : sectionForLine spc f.class_name loc.line = .OtherSection) :
    classifyItem spc ⟨.CppParser loc, .Function f⟩ = ⟨.CppParser loc, .Function f⟩ := by
  unfold classifyItem
  dsimp only
  rw [hst]
  cases f with
  | mk n c mem =>
    cases mem with
    | none => rfl
    | some mf => rfl

/-- Case analysis of a successful classifier run: either there was no
`QObject` file and the database is returned unchanged, or the marker scan
succeeded and every item went through `classifyItem`. -/
theorem detect_cases (headers : List (String × List String)) (fuel : Nat)
    (db db' : Database)
    (h : detect_signals_and_slots headers fuel db = .ok db') :
    (db' = db ∧ (filesOf fuel db).isEmpty = true) ∨
    ∃ sm, sectionsMapEx headers (filesOf fuel db) = .ok sm ∧
      db' = ⟨db.items.map (classifyItem (sectionsPerClass db sm))⟩ := by
  unfold detect_signals_and_slots at h
  cases hf : (filesOf fuel db).isEmpty with
  | true =>
    rw [hf] at h
    simp only [if_true] at h
    injection h with h2
    exact Or.inl ⟨h2.symm, rfl⟩
  | false =>
    rw [hf] at h
    simp only [Bool.false_eq_true, if_false] at h
    cases hsm : sectionsMapEx headers (filesOf fuel db) with
    | error e =>
      rw [hsm] at h
      exact absurd h (by simp)
    | ok sm =>
      rw [hsm] at h
      injection h with h2
      exact Or.inr ⟨sm, rfl, h2.symm⟩

/-- When the classifier reaches the classification loop, `spcOf` is the
marker map it uses. -/
theorem spcOf_eq (headers : List (String × List String)) (fuel : Nat)
    (db : Database) (sm : List (String × List Section))
    (hsm : sectionsMapEx headers (filesOf fuel db) = .ok sm) :
    spcOf headers fuel db = sectionsPerClass db sm := by
  unfold spcOf
  rw [hsm]

end RitualQt

/-- C10: the classifier never writes `false` into a flag: a successful run
preserves the item count; every item keeps its provenance, non-function
payloads and function names/classes are unchanged, and a flag that was set
stays set (`flagFrame`); moreover a parser-sourced method whose computed
section is the generic one is returned entirely unchanged — so repeated
runs can add flags but never remove one. -/
theorem claim_C10 (headers : List (String × List String)) (fuel : Nat)
    (db db' : RitualQt.Database)
    (h : RitualQt.detect_signals_and_slots headers fuel db = .ok db') :
    db'.items.length = db.items.length ∧
    (∀ (i : Nat) (a b : RitualQt.DatabaseItem),
      db.items[i]? = some a → db'.items[i]? = some b →
      RitualQt.flagFrame a b) ∧
    (∀ (i : Nat) (loc : RitualQt.CppOriginLocation) (f : RitualQt.CppFunction)
      (b : RitualQt.DatabaseItem),
      db.items[i]? = some ⟨.CppParser loc, .Function f⟩ →
      db'.items[i]? = some b →
      RitualQt.sectionForLine (RitualQt.spcOf headers fuel db) f.class_name loc.line
        = .OtherSection →
      b = ⟨.CppParser loc, .Function f⟩) := by
  rcases RitualQt.detect_cases headers fuel db db' h with ⟨hdb, _⟩ | ⟨sm, hsm, hdb⟩
  · subst hdb
    refine ⟨rfl, ?_, ?_⟩
    · intro i a b ha hb
      rw [ha] at hb
      injection hb with hb2
      subst hb2
      exact RitualQt.flagFrame_refl a
    · intro i loc f b ha hb _
      rw [ha] at hb
      injection hb with hb2
      exact hb2.symm
  · subst hdb
    refine ⟨by simp, ?_, ?_⟩
    · intro i a b ha hb
      rw [List.getElem?_map, ha, Option.map_some'] at hb
      injection hb with hb2
      subst hb2
      exact RitualQt.classifyItem_frame _ a
    · intro i loc f b ha hb hother
      rw [List.getElem?_map, ha, Option.map_some'] at hb
      injection hb with hb2
      subst hb2
      rw [RitualQt.spcOf_eq headers fuel db sm hsm] at hother
      exact RitualQt.classifyItem_other _ loc f hother

/-- Witness for C10 on the classification example: the run succeeds, item
counts match, and the already-true flag position of item 3 (method `b`)
would be preserved; here we check the frame between input item 3 and
output item 3. -/
theorem claim_C10_witness :
    RitualQt.detect_signals_and_slots RitualQt.exHeaders 5 RitualQt.exDb
      = .ok RitualQt.exOut ∧
    RitualQt.exOut.items.length = RitualQt.exDb.items.length ∧
    RitualQt.flagFrame
      ⟨.CppParser ⟨"h.h", 3⟩, .Function ⟨"b", some "C", some ⟨false, false⟩⟩⟩
      ⟨.CppParser ⟨"h.h", 3⟩, .Function ⟨"b", some "C", some ⟨true, false⟩⟩⟩ := by
  have h := claim_C10 RitualQt.exHeaders 5 RitualQt.exDb RitualQt.exOut rfl
  exact ⟨rfl, h.1, h.2.1 3 _ _ rfl rfl⟩

namespace RitualQt

theorem lookup_mem {β : Type} : ∀ (l : List (String × β)) (k : String) (v : β),
    l.lookup k = some v → (k, v) ∈ l := by
  intro l
  induction l with
  | nil =>
    intro k v h
    simp [List.lookup] at h
  | cons p rest ih =>
    intro k v h
    obtain ⟨k2, v2⟩ := p
    rw [List.lookup] at h
    cases hk : k == k2 with
    | true =>
      rw [hk] at h
      injection h with h2
      subst h2
      have : k = k2 := eq_of_beq hk
      subst this
      exact List.mem_cons_self _ _
    | false =>
      rw [hk] at h
      exact List.mem_cons_of_mem _ (ih k v h)

theorem lookup_upsert (k : String) (v : List Section) :
    ∀ (l : List (String × List Section)) (c : String),
      (upsert k v l).lookup c = if c == k then some v else l.lookup c := by
  intro l
  induction l with
  | nil =>
    intro c
    rw [upsert]
    cases hc : c == k with
    | true => simp [List.lookup, hc]
    | false => simp [List.lookup, hc]
  | cons p rest ih =>
    intro c
    obtain ⟨k2, v2⟩ := p
    rw [upsert]
    cases hk2 : k2 == k with
    | true =>
      have : k2 = k := eq_of_beq hk2
      subst this
      cases hc : c == k2 with
      | true => simp [List.lookup, hc]
      | false => simp [List.lookup, hc]
    | false =>
      cases hc : c == k2 with
      | true =>
        have : c = k2 := eq_of_beq hc
        subst this
        have hck : (c == k) = false := by
          cases hck : c == k with
          | false => rfl
          | true =>
            have : c = k := eq_of_beq hck
            subst this
            simp at hk2
        simp [List.lookup, hc, hck]
      | false =>
        simp only [List.lookup, hc, ih c]

/-- Every file with an entry in the marker map is one of the scanned
files. -/
theorem sectionsMapEx_keys (headers : List (String × List String)) :
    ∀ (fs : List String) (sm : List (String × List Section))
      (f : String) (secs : List Section),
      sectionsMapEx headers fs = .ok sm → (f, secs) ∈ sm → f ∈ fs := by
  intro fs
  induction fs with
  | nil =>
    intro sm f secs h hm
    rw [sectionsMapEx] at h
    injection h with h2
    subst h2
    simp at hm
  | cons f0 fs ih =>
    intro sm f secs h hm
    rw [sectionsMapEx] at h
    cases hl : headers.lookup f0 with
    | none =>
      rw [hl] at h
      exact absurd h (by simp)
    | some lines =>
      rw [hl] at h
      cases hrec : sectionsMapEx headers fs with
      | error e =>
        rw [hrec] at h
        exact absurd h (by simp)
      | ok rest =>
        rw [hrec] at h
        injection h with h2
        by_cases hemp : (fileSections lines).isEmpty = true
        · rw [if_pos hemp] at h2
          subst h2
          exact List.mem_cons_of_mem _ (ih rest f secs hrec hm)
        · rw [if_neg hemp] at h2
          subst h2
          rcases List.mem_cons.mp hm with h3 | h3
          · injection h3 with h4 _
            subst h4
            exact List.mem_cons_self _ _
          · exact List.mem_cons_of_mem _ (ih rest f secs hrec h3)

/-- Every entry of the per-class marker map comes from a parser-sourced
type declaration whose include file has an entry in the marker map. -/
theorem spc_fold_lookup (sm : List (String × List Section)) :
    ∀ (items : List DatabaseItem) (acc : List (String × List Section))
      (c : String) (secs : List Section),
      (items.foldl (spcStep sm) acc).lookup c = some secs →
      acc.lookup c = some secs ∨
      ∃ (loc : CppOriginLocation) (t : CppTypeData) (s0 : List Section),
        (⟨.CppParser loc, .TypeItem t⟩ : DatabaseItem) ∈ items ∧ t.name = c ∧
        sm.lookup loc.include_file_path = some s0 ∧
        secs = s0.filter (fun x => x.line + 1 ≥ loc.line) := by
  intro items
  induction items with
  | nil =>
    intro acc c secs h
    exact Or.inl h
  | cons it rest ih =>
    intro acc c secs h
    rw [List.foldl_cons] at h
    rcases ih (spcStep sm acc it) c secs h with h2 | h2
    · obtain ⟨src, data⟩ := it
      cases src with
      | Synthesized => exact Or.inl h2
      | CppParser loc =>
        cases data with
        | TypeItem t =>
          rw [spcStep] at h2
          dsimp only at h2
          cases hl : sm.lookup loc.include_file_path with
          | none =>
            simp only [hl] at h2
            exact Or.inl h2
          | some s0 =>
            simp only [hl] at h2
            rw [lookup_upsert] at h2
            cases hc : c == t.name with
            | true =>
              rw [hc] at h2
              injection h2 with h3
              refine Or.inr ⟨loc, t, s0, List.mem_cons_self _ _, (eq_of_beq hc).symm,
                hl, h3.symm⟩
            | false =>
              rw [hc] at h2
              exact Or.inl h2
        | Function f => exact Or.inl h2
        | ClassBase b => exact Or.inl h2
        | OtherData => exact Or.inl h2
    · obtain ⟨loc, t, s0, hmem, hrest⟩ := h2
      exact Or.inr ⟨loc, t, s0, List.mem_cons_of_mem _ hmem, hrest⟩

/-- Every collected file comes from a parser-sourced class declaration
that transitively derives from `QObject`. -/
theorem filesOf_fold_mem (fuel : Nat) (db : Database) :
    ∀ (items : List DatabaseItem) (acc : List String) (fpath : String),
      fpath ∈ items.foldl (filesStep fuel db) acc →
      fpath ∈ acc ∨
      ∃ (locX : CppOriginLocation) (tX : CppTypeData) (tbX : CppTypeBaseRef),
        (⟨.CppParser locX, .TypeItem tX⟩ : DatabaseItem) ∈ items ∧
        tX.kind = .Class tbX ∧
        inherits fuel db tbX.name "QObject" = true ∧
        locX.include_file_path = fpath := by
  intro items
  induction items with
  | nil =>
    intro acc fpath h
    exact Or.inl h
  | cons it rest ih =>
    intro acc fpath h
    rw [List.foldl_cons] at h
    rcases ih (filesStep fuel db acc it) fpath h with h2 | h2
    · obtain ⟨src, data⟩ := it
      cases src with
      | Synthesized => exact Or.inl h2
      | CppParser loc =>
        cases data with
        | TypeItem t =>
          rw [filesStep] at h2
          dsimp only at h2
          cases hk : t.kind with
          | Enum =>
            simp only [hk] at h2
            exact Or.inl h2
          | Class tb =>
            simp only [hk] at h2
            cases hin : inherits fuel db tb.name "QObject" with
            | false =>
              simp only [hin, Bool.false_eq_true, if_false] at h2
              exact Or.inl h2
            | true =>
              simp only [hin, if_true] at h2
              by_cases hcon : acc.contains loc.include_file_path = true
              · rw [if_pos hcon] at h2
                exact Or.inl h2
              · rw [if_neg hcon] at h2
                rcases List.mem_append.mp h2 with h3 | h3
                · exact Or.inl h3
                · have : fpath = loc.include_file_path := by
                    simpa using h3
                  exact Or.inr ⟨loc, t, tb, List.mem_cons_self _ _, hk, hin, this.symm⟩
        | Function f => exact Or.inl h2
        | ClassBase b => exact Or.inl h2
        | OtherData => exact Or.inl h2
    · obtain ⟨locX, tX, tbX, hmem, hrest⟩ := h2
      exact Or.inr ⟨locX, tX, tbX, List.mem_cons_of_mem _ hmem, hrest⟩

theorem mem_filesOf {fuel : Nat} {db : Database} {fpath : String}
    (h : fpath ∈ filesOf fuel db) :
    ∃ (locX : CppOriginLocation) (tX : CppTypeData) (tbX : CppTypeBaseRef),
      (⟨.CppParser locX, .TypeItem tX⟩ : DatabaseItem) ∈ db.items ∧
      tX.kind = .Class tbX ∧
      inherits fuel db tbX.name "QObject" = true ∧
      locX.include_file_path = fpath := by
  rcases filesOf_fold_mem fuel db db.items [] fpath h with h2 | h2
  · simp at h2
  · exact h2

theorem newlyFlagged_self_false (a : DatabaseItem) : newlyFlagged a a = false := by
  unfold newlyFlagged
  cases h1 : itemIsSignal a <;> cases h2 : itemIsSlot a <;> rfl

end RitualQt

namespace RitualQt

theorem sectionForLine_ne_other {spc : List (String × List Section)}
    {cls : Option String} {line : Nat}
    (h : sectionForLine spc cls line ≠ .OtherSection) :
    ∃ c secs, cls = some c ∧ spc.lookup c = some secs := by
  unfold sectionForLine at h
  cases cls with
  | none => exact absurd rfl h
  | some c =>
    dsimp only at h
    cases hl : spc.lookup c with
    | none =>
      rw [hl] at h
      exact absurd rfl h
    | some secs =>
      exact ⟨c, secs, rfl, hl⟩

theorem classify_newly_flagged (spc : List (String × List Section))
    (a : DatabaseItem)
    (hn : newlyFlagged a (classifyItem spc a) = true) :
    ∃ (loc : CppOriginLocation) (f : CppFunction) (c : String) (secs : List Section),
      a = ⟨.CppParser loc, .Function f⟩ ∧ f.class_name = some c ∧
      spc.lookup c = some secs := by
  obtain ⟨src, data⟩ := a
  cases src with
  | Synthesized =>
    rw [show classifyItem spc ⟨.Synthesized, data⟩ = ⟨.Synthesized, data⟩ from rfl] at hn
    exact absurd hn (by rw [newlyFlagged_self_false]; simp)
  | CppParser loc =>
    cases data with
    | TypeItem t =>
      rw [show classifyItem spc ⟨.CppParser loc, .TypeItem t⟩
        = ⟨.CppParser loc, .TypeItem t⟩ from rfl] at hn
      exact absurd hn (by rw [newlyFlagged_self_false]; simp)
    | ClassBase bd =>
      rw [show classifyItem spc ⟨.CppParser loc, .ClassBase bd⟩
        = ⟨.CppParser loc, .ClassBase bd⟩ from rfl] at hn
      exact absurd hn (by rw [newlyFlagged_self_false]; simp)
    | OtherData =>
      rw [show classifyItem spc ⟨.CppParser loc, .OtherData⟩
        = ⟨.CppParser loc, .OtherData⟩ from rfl] at hn
      exact absurd hn (by rw [newlyFlagged_self_false]; simp)
    | Function f =>
      cases hmem : f.member with
      | none =>
        exfalso
        unfold newlyFlagged itemIsSignal itemIsSlot classifyItem at hn
        simp [hmem] at hn
      | some mf =>
        cases hst : sectionForLine spc f.class_name loc.line with
        | OtherSection =>
          rw [classifyItem_other spc loc f hst] at hn
          exact absurd hn (by rw [newlyFlagged_self_false]; simp)
        | Signals =>
          have hne : sectionForLine spc f.class_name loc.line ≠ .OtherSection := by
            rw [hst]
            intro hcontra
            exact SectionType.noConfusion hcontra
          obtain ⟨c, secs, hc, hl⟩ := sectionForLine_ne_other hne
          exact ⟨loc, f, c, secs, rfl, hc, hl⟩
        | Slots =>
          have hne : sectionForLine spc f.class_name loc.line ≠ .OtherSection := by
            rw [hst]
            intro hcontra
            exact SectionType.noConfusion hcontra
          obtain ⟨c, secs, hc, hl⟩ := sectionForLine_ne_other hne
          exact ⟨loc, f, c, secs, rfl, hc, hl⟩

end RitualQt

/-- C8 counterexample: in `cxDb`, class `X` derives from `QObject` and
class `Y` does not, yet both are declared in `g.h`; the method `Y::m`
sits after a `signals:` marker and ends up with `is_signal = true`
although `Y` does not derive from `QObject` — classification is per
include file, not per class. -/
theorem claim_C8_counterexample :
    RitualQt.inherits 5 RitualQt.cxDb "Y" "QObject" = false ∧
    RitualQt.itemIsSignal
      ⟨.CppParser ⟨"g.h", 3⟩, .Function ⟨"m", some "Y", some ⟨false, false⟩⟩⟩ = false ∧
    RitualQt.detect_signals_and_slots RitualQt.cxHeaders 5 RitualQt.cxDb
      = .ok RitualQt.cxOut ∧
    RitualQt.cxOut.items[3]?
      = some ⟨.CppParser ⟨"g.h", 3⟩, .Function ⟨"m", some "Y", some ⟨true, false⟩⟩⟩ :=
  ⟨rfl, rfl, rfl, rfl⟩

/-- C8 (amended): the classifier's granularity is the include file, not
the class: a method can have a flag newly set only when its owning class
is a parsed type declaration whose include file is one of the collected
files — that is, a file containing at least one parsed class transitively
deriving from `QObject`.  Methods in files containing no QObject-derived
class are never flagged; classes that merely share such a file can be. -/
theorem claim_C8_amended (headers : List (String × List String)) (fuel : Nat)
    (db db' : RitualQt.Database)
    (h : RitualQt.detect_signals_and_slots headers fuel db = .ok db')
    (i : Nat) (a b : RitualQt.DatabaseItem)
    (ha : db.items[i]? = some a) (hb : db'.items[i]? = some b)
    (hn : RitualQt.newlyFlagged a b = true) :
    ∃ (loc locT : RitualQt.CppOriginLocation) (f : RitualQt.CppFunction)
      (c : String) (t : RitualQt.CppTypeData),
      a = ⟨.CppParser loc, .Function f⟩ ∧ f.class_name = some c ∧
      (⟨.CppParser locT, .TypeItem t⟩ : RitualQt.DatabaseItem) ∈ db.items ∧
      t.name = c ∧
      ∃ (locX : RitualQt.CppOriginLocation) (tX : RitualQt.CppTypeData)
        (tbX : RitualQt.CppTypeBaseRef),
        (⟨.CppParser locX, .TypeItem tX⟩ : RitualQt.DatabaseItem) ∈ db.items ∧
        tX.kind = .Class tbX ∧
        RitualQt.inherits fuel db tbX.name "QObject" = true ∧
        locX.include_file_path = locT.include_file_path := by
  rcases RitualQt.detect_cases headers fuel db db' h with ⟨hdb, _⟩ | ⟨sm, hsm, hdb⟩
  · subst hdb
    rw [ha] at hb
    injection hb with hb2
    subst hb2
    rw [RitualQt.newlyFlagged_self_false] at hn
    exact absurd hn (by simp)
  · subst hdb
    rw [List.getElem?_map, ha, Option.map_some'] at hb
    injection hb with hb2
    subst hb2
    obtain ⟨loc, f, c, secs, haEq, hcn, hlk⟩ :=
      RitualQt.classify_newly_flagged (RitualQt.sectionsPerClass db sm) a hn
    rcases RitualQt.spc_fold_lookup sm db.items [] c secs hlk with h2 | h2
    · simp [List.lookup] at h2
    · obtain ⟨locT, t, s0, hmemT, htn, hsm0, _⟩ := h2
      have hpair := RitualQt.lookup_mem sm locT.include_file_path s0 hsm0
      have hfile := RitualQt.sectionsMapEx_keys headers (RitualQt.filesOf fuel db) sm
        locT.include_file_path s0 hsm hpair
      obtain ⟨locX, tX, tbX, hmemX, hkX, hinX, hfX⟩ := RitualQt.mem_filesOf hfile
      exact ⟨loc, locT, f, c, t, haEq, hcn, hmemT, htn,
        locX, tX, tbX, hmemX, hkX, hinX, hfX⟩

/-- Witness for C8 (amended) at the counterexample database: `Y::m` is
newly flagged, and the theorem produces the QObject-derived class `X`
sharing `Y`'s include file. -/
theorem claim_C8_amended_witness :
    RitualQt.newlyFlagged
      ⟨.CppParser ⟨"g.h", 3⟩, .Function ⟨"m", some "Y", some ⟨false, false⟩⟩⟩
      ⟨.CppParser ⟨"g.h", 3⟩, .Function ⟨"m", some "Y", some ⟨true, false⟩⟩⟩ = true ∧
    ∃ (loc locT : RitualQt.CppOriginLocation) (f : RitualQt.CppFunction)
      (c : String) (t : RitualQt.CppTypeData),
      (⟨.CppParser ⟨"g.h", 3⟩, .Function ⟨"m", some "Y", some ⟨false, false⟩⟩⟩
        : RitualQt.DatabaseItem) = ⟨.CppParser loc, .Function f⟩ ∧
      f.class_name = some c ∧
      (⟨.CppParser locT, .TypeItem t⟩ : RitualQt.DatabaseItem) ∈ RitualQt.cxDb.items ∧
      t.name = c ∧
      ∃ (locX : RitualQt.CppOriginLocation) (tX : RitualQt.CppTypeData)
        (tbX : RitualQt.CppTypeBaseRef),
        (⟨.CppParser locX, .TypeItem tX⟩ : RitualQt.DatabaseItem) ∈ RitualQt.cxDb.items ∧
        tX.kind = .Class tbX ∧
        RitualQt.inherits 5 RitualQt.cxDb tbX.name "QObject" = true ∧
        locX.include_file_path = locT.include_file_path :=
  ⟨rfl, claim_C8_amended RitualQt.cxHeaders 5 RitualQt.cxDb RitualQt.cxOut rfl 3
    _ _ rfl rfl rfl⟩

namespace RitualQt

theorem spcStep_nil (acc : List (String × List Section)) (it : DatabaseItem) :
    spcStep [] acc it = acc := by
  obtain ⟨src, data⟩ := it
  cases src <;> cases data <;> rfl

theorem sectionsPerClass_nil (db : Database) : sectionsPerClass db [] = [] := by
  unfold sectionsPerClass
  have key : ∀ (items : List DatabaseItem) (acc : List (String × List Section)),
      items.foldl (spcStep []) acc = acc := by
    intro items
    induction items with
    | nil => intro acc; rfl
    | cons it rest ih =>
      intro acc
      rw [List.foldl_cons, spcStep_nil]
      exact ih acc
  exact key db.items []

end RitualQt

/-- C6: for every parser-sourced method with a class-membership record
whose class has an entry in the per-class marker map, the classifier
takes the markers at or before the method's (adjusted) line — i.e. the
markers the method falls strictly after — and the last of them determines
the method's section: a signals marker sets `is_signal`, a slots marker
sets `is_slot`, and no preceding in-scope marker or a generic visibility
marker leaves the membership record unchanged.  (The spec's concrete
header example is checked in the witness.) -/
theorem claim_C6 (headers : List (String × List String)) (fuel : Nat)
    (db db' : RitualQt.Database) (sm : List (String × List RitualQt.Section))
    (i : Nat) (loc : RitualQt.CppOriginLocation) (f : RitualQt.CppFunction)
    (c : String) (mf : RitualQt.FnMember) (secs : List RitualQt.Section)
    (h1 : RitualQt.detect_signals_and_slots headers fuel db = .ok db')
    (h3 : db.items[i]? = some ⟨.CppParser loc, .Function f⟩)
    (h4 : f.class_name = some c)
    (h7 : f.member = some mf)
    (h5 : RitualQt.sectionsMapEx headers (RitualQt.filesOf fuel db) = .ok sm)
    (h6 : (RitualQt.sectionsPerClass db sm).lookup c = some secs) :
    ∃ g : RitualQt.CppFunction,
      db'.items[i]? = some ⟨.CppParser loc, .Function g⟩ ∧
      g.name = f.name ∧ g.class_name = f.class_name ∧
      (((secs.filter (fun x => x.line + 1 ≤ loc.line)).getLast?).map
          RitualQt.Section.section_type = some .Signals →
        g.member = some ⟨true, mf.is_slot⟩) ∧
      (((secs.filter (fun x => x.line + 1 ≤ loc.line)).getLast?).map
          RitualQt.Section.section_type = some .Slots →
        g.member = some ⟨mf.is_signal, true⟩) ∧
      (((secs.filter (fun x => x.line + 1 ≤ loc.line)).getLast? = none ∨
        ((secs.filter (fun x => x.line + 1 ≤ loc.line)).getLast?).map
          RitualQt.Section.section_type = some .OtherSection) →
        g.member = some mf) := by
  rcases RitualQt.detect_cases headers fuel db db' h1 with ⟨hdb, hemp⟩ | ⟨sm2, hsm2, hdb⟩
  · exfalso
    have hfs : RitualQt.filesOf fuel db = [] := List.isEmpty_iff.mp hemp
    rw [hfs, RitualQt.sectionsMapEx] at h5
    injection h5 with h5b
    subst h5b
    rw [RitualQt.sectionsPerClass_nil] at h6
    simp [List.lookup] at h6
  · rw [h5] at hsm2
    injection hsm2 with hsm3
    subst hsm3
    subst hdb
    have hst : RitualQt.sectionForLine (RitualQt.sectionsPerClass db sm)
        f.class_name loc.line
        = (match (secs.filter (fun x => x.line + 1 ≤ loc.line)).getLast? with
           | some s => s.section_type
           | none => .OtherSection) := by
      rw [h4]
      unfold RitualQt.sectionForLine
      dsimp only
      rw [h6]
    refine ⟨{ f with member := some (RitualQt.applySectionToMember
        (RitualQt.sectionForLine (RitualQt.sectionsPerClass db sm) f.class_name loc.line)
        mf) }, ?_, rfl, rfl, ?_, ?_, ?_⟩
    · rw [List.getElem?_map, h3, Option.map_some']
      unfold RitualQt.classifyItem
      dsimp only
      rw [h7]
      rfl
    · intro hsig
      cases hgl : (secs.filter (fun x => x.line + 1 ≤ loc.line)).getLast? with
      | none =>
        rw [hgl] at hsig
        simp at hsig
      | some s =>
        rw [hgl] at hsig
        simp only [Option.map_some', Option.some.injEq] at hsig
        show some (RitualQt.applySectionToMember _ mf) = _
        rw [hst, hgl]
        dsimp only
        rw [hsig]
        obtain ⟨msig, mslot⟩ := mf
        rfl
    · intro hslot
      cases hgl : (secs.filter (fun x => x.line + 1 ≤ loc.line)).getLast? with
      | none =>
        rw [hgl] at hslot
        simp at hslot
      | some s =>
        rw [hgl] at hslot
        simp only [Option.map_some', Option.some.injEq] at hslot
        show some (RitualQt.applySectionToMember _ mf) = _
        rw [hst, hgl]
        dsimp only
        rw [hslot]
        obtain ⟨msig, mslot⟩ := mf
        rfl
    · intro hother
      rcases hother with hnone | hoth
      · show some (RitualQt.applySectionToMember _ mf) = _
        rw [hst, hnone]
        rfl
      · cases hgl : (secs.filter (fun x => x.line + 1 ≤ loc.line)).getLast? with
        | none =>
          show some (RitualQt.applySectionToMember _ mf) = _
          rw [hst, hgl]
          rfl
        | some s =>
          rw [hgl] at hoth
          simp only [Option.map_some', Option.some.injEq] at hoth
          show some (RitualQt.applySectionToMember _ mf) = _
          rw [hst, hgl]
          dsimp only
          rw [hoth]
          rfl

/-- Witness for C6 on the spec's header example
`"public:\nvoid a();\nsignals:\nvoid b();\nslots:\nvoid c();\n"` with the
class at line 0: method `a` (line 1) stays unclassified, `b` (line 3) gets
`is_signal = true`, `c` (line 5) gets `is_slot = true`. -/
theorem claim_C6_witness :
    (∃ g : RitualQt.CppFunction,
      RitualQt.exOut.items[2]? = some ⟨.CppParser ⟨"h.h", 1⟩, .Function g⟩ ∧
      g.member = some ⟨false, false⟩) ∧
    (∃ g : RitualQt.CppFunction,
      RitualQt.exOut.items[3]? = some ⟨.CppParser ⟨"h.h", 3⟩, .Function g⟩ ∧
      g.member = some ⟨true, false⟩) ∧
    (∃ g : RitualQt.CppFunction,
      RitualQt.exOut.items[4]? = some ⟨.CppParser ⟨"h.h", 5⟩, .Function g⟩ ∧
      g.member = some ⟨false, true⟩) := by
  refine ⟨?_, ?_, ?_⟩
  · obtain ⟨g, hg, _, _, _, _, hoth⟩ := claim_C6 RitualQt.exHeaders 5
      RitualQt.exDb RitualQt.exOut
      [("h.h", [⟨0, .OtherSection⟩, ⟨2, .Signals⟩, ⟨4, .Slots⟩])]
      2 ⟨"h.h", 1⟩ ⟨"a", some "C", some ⟨false, false⟩⟩ "C" ⟨false, false⟩
      [⟨0, .OtherSection⟩, ⟨2, .Signals⟩, ⟨4, .Slots⟩]
      rfl rfl rfl rfl rfl rfl
    exact ⟨g, hg, hoth (Or.inr rfl)⟩
  · obtain ⟨g, hg, _, _, hsig, _, _⟩ := claim_C6 RitualQt.exHeaders 5
      RitualQt.exDb RitualQt.exOut
      [("h.h", [⟨0, .OtherSection⟩, ⟨2, .Signals⟩, ⟨4, .Slots⟩])]
      3 ⟨"h.h", 3⟩ ⟨"b", some "C", some ⟨false, false⟩⟩ "C" ⟨false, false⟩
      [⟨0, .OtherSection⟩, ⟨2, .Signals⟩, ⟨4, .Slots⟩]
      rfl rfl rfl rfl rfl rfl
    exact ⟨g, hg, hsig rfl⟩
  · obtain ⟨g, hg, _, _, _, hslot, _⟩ := claim_C6 RitualQt.exHeaders 5
      RitualQt.exDb RitualQt.exOut
      [("h.h", [⟨0, .OtherSection⟩, ⟨2, .Signals⟩, ⟨4, .Slots⟩])]
      4 ⟨"h.h", 5⟩ ⟨"c", some "C", some ⟨false, false⟩⟩ "C" ⟨false, false⟩
      [⟨0, .OtherSection⟩, ⟨2, .Signals⟩, ⟨4, .Slots⟩]
      rfl rfl rfl rfl rfl rfl
    exact ⟨g, hg, hslot rfl⟩
